import Mathlib

/-!
# Verification of the unit-aware calculation dispatch layer

Shallow embedding of `src/tools/metpy_wrapper.py` and the tool-construction
helpers of `src/tools/metpy_calcs.py`.

Modelling conventions:
* Python dicts are ordered association lists (`PyDict`): assignment updates an
  existing key in place (keeping its position) or appends a new binding,
  exactly as CPython dicts behave.
* Raw cell values (`Value`) are numbers, strings or null, as in the data
  model of the spec; numbers are rationals (the claims never depend on
  binary floating-point rounding), and the not-a-number sentinel produced
  by failed coercion is `Option.none`.
* The external calculation library `metpy.calc` is not part of the
  repository, so it is modelled as a parameter (`Library`): a finite map
  from function names to declared parameter lists plus an implementation
  returning `Except` (an `Except.error` models a raised exception, whose
  `str(e)` text is the carried string).  The helper functions used by
  `_fill_missing_params` are likewise oracles (`DerivOracles`), returning
  `Option` (a `none` models a raised exception, which the rule swallows).
-/

/-- A raw cell value of a `Record`: number, string, or null
(spec data model: "column name (string) to a raw value (number, string, or null)"). -/
inductive Value where
  | null : Value
  | num : ℚ → Value
  | str : String → Value
deriving DecidableEq, Repr

/-- Ordered association list: the embedding of a Python dict. -/
abbrev PyDict (β : Type) : Type := List (String × β)

/-- Python `d.get(k)` / `d[k]`: first binding wins (keys are unique in a
real dict, so this is exact). -/
def dictGet {β : Type} : PyDict β → String → Option β
  | [], _ => none
  | (k', v) :: rest, k => if k' = k then some v else dictGet rest k

/-- Python `d[k] = v`: update the existing binding in place (keeping its
position), else append a new binding at the end. -/
def dictSet {β : Type} : PyDict β → String → β → PyDict β
  | [], k, v => [(k, v)]
  | (k', v') :: rest, k, v =>
      if k' = k then (k', v) :: rest else (k', v') :: dictSet rest k v

/-- Python `list(d.keys())`. -/
def dictKeys {β : Type} (d : PyDict β) : List String := d.map Prod.fst

/-- Python `k in d`. -/
def dictMem {β : Type} (d : PyDict β) (k : String) : Bool := (dictGet d k).isSome

/-- A Record: ordered mapping from column name to raw value. -/
abbrev Rec := PyDict Value

/-- Python `str.lower()` (`String.toLower` character by character, in a
form the kernel evaluates). -/
def strLower (s : String) : String := ⟨s.data.map Char.toLower⟩

/-- Substring containment on character lists (Python `pat in hay`). -/
def listSub (pat : List Char) : List Char → Bool
  | [] => pat.isEmpty
  | c :: rest => pat.isPrefixOf (c :: rest) || listSub pat rest

/-- Python `pat in hay` for strings. -/
def strContains (hay pat : String) : Bool := listSub pat.data hay.data

/-- One schema entry (`DEFAULT_SCHEMA` values in `metpy_wrapper.py`):
aliases, unit string, required flag, plausible range. -/
structure SchemaEntry where
  aliases : List String
  unit : Option String
  required : Bool
  range : Option (ℚ × ℚ)
deriving DecidableEq, Repr

/-- A schema: ordered mapping canonical field name → entry. -/
abbrev Schema := PyDict SchemaEntry

/-- `DEFAULT_SCHEMA` of `metpy_wrapper.py`, verbatim. -/
def DEFAULT_SCHEMA : Schema :=
  [ ("temperature", ⟨["气温", "温度", "气温(℃)"], some "degC", true, some (-90, 60)⟩),
    ("relative_humidity", ⟨["相对湿度", "湿度", "相对湿度(%)"], some "percent", true, some (0, 100)⟩),
    ("pressure", ⟨["气压", "气压(hPa)"], some "hPa", false, some (100, 2000)⟩),
    ("dewpoint", ⟨["露点", "露点温度(℃)"], some "degC", false, some (-90, 60)⟩),
    ("wind_speed", ⟨["风速", "风速(m/s)"], some "m/s", false, some (0, 100)⟩),
    ("wind_direction", ⟨["风向", "风向(°)"], some "degree", false, some (0, 360)⟩),
    ("specific_humidity", ⟨["比湿", "比湿(g/kg)"], some "kg/kg", false, some (0, 1/20)⟩),
    ("mixing_ratio", ⟨["混合比", "混合比(g/kg)"], some "kg/kg", false, some (0, 1/10)⟩),
    ("height", ⟨["高度", "海拔", "高度(m)"], some "meter", false, some (0, 20000)⟩),
    ("geopotential_height", ⟨["位势高度", "Φz"], some "meter", false, some (0, 20000)⟩) ]

/-- `lowcols = {c.lower(): c for c in columns}` — dict comprehension:
a duplicate lowered key keeps its first position but takes the last value. -/
def lowcols (cols : List String) : PyDict String :=
  cols.foldl (fun m c => dictSet m (strLower c) c) []

/-- The alias-matching test of `build_column_map`, on the already-lowered
alias `a` and lowered column name `cl`:
`a == col_lower or a in col_lower or col_lower in a`. -/
def aliasMatch (a cl : String) : Bool :=
  a = cl || strContains cl a || strContains a cl

/-- The inner loop of `build_column_map`: first column of `lc` whose lowered
name matches the alias (returning the original column name). -/
def findColForAlias (a : String) (lc : PyDict String) : Option String :=
  (List.find? (fun p => aliasMatch (strLower a) p.1) lc).map Prod.snd

/-- The alias loop of `build_column_map`: first alias (in declared order)
that matches any column wins. -/
def findColForAliases (aliases : List String) (lc : PyDict String) : Option String :=
  aliases.findSome? (fun a => findColForAlias a lc)

/-- `build_column_map(columns, schema)` of `metpy_wrapper.py`: for each
canonical field of the schema (in declaration order), bind it to the first
matching column, or omit it.  (In the source the result is a dict written
in schema order; schema keys are unique there, so `List.filterMap` builds
the same dict.) -/
def build_column_map (cols : List String) (schema : Schema) : PyDict String :=
  let lc := lowcols cols
  schema.filterMap (fun p => (findColForAliases p.2.aliases lc).map (fun col => (p.1, col)))

/-- Decimal literal parser: models Python `float(str)` on plain decimal
literals (optional sign, digits, optional fractional part).  No claim
depends on which exotic strings Python accepts; unaccepted strings model
a raised ValueError (`none`). -/
def parseDecimal (s : String) : Option ℚ :=
  let core : List Char → Option ℚ := fun cs =>
    let ip := cs.takeWhile Char.isDigit
    let rest := cs.dropWhile Char.isDigit
    match rest with
    | [] => if ip.isEmpty then none else
        some (ip.foldl (fun n c => n * 10 + ((c.toNat - 48 : ℕ) : ℚ)) 0)
    | '.' :: frac =>
        if frac.all Char.isDigit && !(ip.isEmpty && frac.isEmpty) then
          some (ip.foldl (fun n c => n * 10 + ((c.toNat - 48 : ℕ) : ℚ)) 0
            + (frac.foldl (fun n c => n * 10 + ((c.toNat - 48 : ℕ) : ℚ)) 0)
              / (10 : ℚ) ^ frac.length)
        else none
    | _ => none
  match s.data with
  | '-' :: cs => (core cs).map Neg.neg
  | '+' :: cs => core cs
  | cs => core cs

/-- The per-cell coercion of `normalize_units`:
`float(v) if v is not None else np.nan`, with any exception caught and
turned into the nan sentinel.  `none` on the left is an absent column
(`rec.get(col, None)`), which Python also maps to None. -/
def coerceFloat : Option Value → Option ℚ
  | some (Value.num x) => some x
  | some (Value.str s) => parseDecimal s
  | some Value.null => none
  | none => none

/-- One column of `normalize_units`: the fixed-length array of coerced
values for column `col` (length = record count). -/
def colArray (records : List Rec) (col : String) : List (Option ℚ) :=
  records.map (fun r => coerceFloat (dictGet r col))

/-- `bad_count` of `normalize_units`: values strictly outside [lo, hi].
Numpy comparisons with nan are False, so nan entries never count. -/
def badCount (arr : List (Option ℚ)) (lo hi : ℚ) : Nat :=
  arr.countP (fun v => match v with
    | some x => decide (x < lo) || decide (hi < x)
    | none => false)

/-- The warning text of `normalize_units`. -/
def warnMsg (canonical : String) (bc : Nat) (lo hi : ℚ) : String :=
  canonical ++ ": 大约 " ++ toString bc ++ " 条记录超出合理范围 (" ++
    toString lo ++ ", " ++ toString hi ++ ")"

/-- The warning condition of `normalize_units` (line 75):
`bad_count > 0 and (bad_count / max(1, n)) > 0.01`, where `n` is the
total record count `len(data_dicts)`. -/
def warnCond (arr : List (Option ℚ)) (n : Nat) (lo hi : ℚ) : Prop :=
  0 < badCount arr lo hi ∧ ((badCount arr lo hi : ℚ)) / ((max 1 n : ℕ) : ℚ) > 1 / 100

instance (arr : List (Option ℚ)) (n : Nat) (lo hi : ℚ) :
    Decidable (warnCond arr n lo hi) := by
  unfold warnCond; infer_instance

/-- One iteration of the `normalize_units` loop body, acting on the
accumulated `(mapped, warnings)` pair. -/
def normStep (records : List Rec) (schema : Schema) (n : Nat)
    (acc : PyDict (List (Option ℚ) × Option String) × List String)
    (p : String × String) : PyDict (List (Option ℚ) × Option String) × List String :=
  let arr := colArray records p.2
  let unit := (dictGet schema p.1).bind SchemaEntry.unit
  let mapped := dictSet acc.1 p.1 (arr, unit)
  match (dictGet schema p.1).bind SchemaEntry.range with
  | some (lo, hi) =>
      if warnCond arr n lo hi then
        (mapped, acc.2 ++ [warnMsg p.1 (badCount arr lo hi) lo hi])
      else (mapped, acc.2)
  | none => (mapped, acc.2)

/-- `normalize_units(data_dicts, colmap, schema)` of `metpy_wrapper.py`:
returns `(mapped_arrays, warnings)`.  The 1% range-check threshold divides
`bad_count` by `max(1, n)` where `n = len(data_dicts)` (the total record
count). -/
def normalize_units (records : List Rec) (colmap : PyDict String) (schema : Schema) :
    PyDict (List (Option ℚ) × Option String) × List String :=
  colmap.foldl (normStep records schema records.length) ([], [])

/-- A whole-column quantity: magnitudes plus unit tag.  pint unit objects
are identified with their resolution strings; `prepare_quantities` never
fails to produce some unit object (dimensionless in the worst case), and
no claim depends on which object is picked. -/
structure VQ where
  mag : List (Option ℚ)
  unit : Option String
deriving DecidableEq, Repr

/-- `prepare_quantities(mapped_arrays, units)` of `metpy_wrapper.py`:
tags each array with its (resolved) unit. -/
def prepare_quantities (m : PyDict (List (Option ℚ) × Option String)) : PyDict VQ :=
  m.map (fun p => (p.1, ⟨p.2.1, p.2.2⟩))

/-- Oracles for the `metpy.calc` helper functions used by
`_fill_missing_params`; `none` models a raised exception (swallowed by the
rule's `except: pass`). -/
structure DerivOracles (α : Type) where
  dewpoint_from_relative_humidity : α → α → Option α
  mixing_ratio_from_specific_humidity : α → Option α
  relative_humidity_from_mixing_ratio : α → α → α → Option α
  mixing_ratio_from_relative_humidity : α → α → α → Option α
  saturation_vapor_pressure : α → Option α
  mixing_ratio : α → α → Option α
  height_to_pressure_std : α → Option α
  geopotential_to_height : α → Option α
  parcel_profile : α → α → α → Option α

/-- The dewpoint rule of `_fill_missing_params` (first block). -/
def fillDewpoint {α : Type} (O : DerivOracles α) (p : PyDict α) : PyDict α :=
  if dictMem p "dewpoint" then p
  else if dictMem p "temperature" && dictMem p "relative_humidity" then
    match dictGet p "temperature", dictGet p "relative_humidity" with
    | some t, some rh =>
        match O.dewpoint_from_relative_humidity t rh with
        | some d => dictSet p "dewpoint" d
        | none => p
    | _, _ => p
  else if dictMem p "temperature" && dictMem p "specific_humidity" && dictMem p "pressure" then
    match dictGet p "temperature", dictGet p "specific_humidity", dictGet p "pressure" with
    | some t, some sh, some pr =>
        match (O.mixing_ratio_from_specific_humidity sh).bind (fun mr =>
              (O.relative_humidity_from_mixing_ratio pr t mr).bind (fun rh =>
                O.dewpoint_from_relative_humidity t rh)) with
        | some d => dictSet p "dewpoint" d
        | none => p
    | _, _, _ => p
  else p

/-- The mixing-ratio rule of `_fill_missing_params` (second block). -/
def fillMixingRatio {α : Type} (O : DerivOracles α) (p : PyDict α) : PyDict α :=
  if dictMem p "mixing_ratio" then p
  else if dictMem p "specific_humidity" then
    match dictGet p "specific_humidity" with
    | some sh =>
        match O.mixing_ratio_from_specific_humidity sh with
        | some m => dictSet p "mixing_ratio" m
        | none => p
    | none => p
  else if dictMem p "pressure" && dictMem p "temperature" && dictMem p "relative_humidity" then
    match dictGet p "pressure", dictGet p "temperature", dictGet p "relative_humidity" with
    | some pr, some t, some rh =>
        match O.mixing_ratio_from_relative_humidity pr t rh with
        | some m => dictSet p "mixing_ratio" m
        | none => p
    | _, _, _ => p
  else if dictMem p "pressure" && dictMem p "dewpoint" then
    match dictGet p "pressure", dictGet p "dewpoint" with
    | some pr, some dp =>
        match (O.saturation_vapor_pressure dp).bind (fun e => O.mixing_ratio e pr) with
        | some m => dictSet p "mixing_ratio" m
        | none => p
    | _, _ => p
  else p

/-- The pressure rule of `_fill_missing_params` (third block). -/
def fillPressure {α : Type} (O : DerivOracles α) (p : PyDict α) : PyDict α :=
  if dictMem p "pressure" then p
  else if dictMem p "height" then
    match dictGet p "height" with
    | some h =>
        match O.height_to_pressure_std h with
        | some pr => dictSet p "pressure" pr
        | none => p
    | none => p
  else if dictMem p "geopotential_height" then
    match dictGet p "geopotential_height" with
    | some gh =>
        match (O.geopotential_to_height gh).bind O.height_to_pressure_std with
        | some pr => dictSet p "pressure" pr
        | none => p
    | none => p
  else p

/-- The parcel-profile rule of `_fill_missing_params` (fourth block). -/
def fillParcel {α : Type} (O : DerivOracles α) (p : PyDict α) : PyDict α :=
  if !dictMem p "parcel_profile" && dictMem p "pressure" && dictMem p "temperature"
      && dictMem p "dewpoint" then
    match dictGet p "pressure", dictGet p "temperature", dictGet p "dewpoint" with
    | some pr, some t, some dp =>
        match O.parcel_profile pr t dp with
        | some v => dictSet p "parcel_profile" v
        | none => p
    | _, _, _ => p
  else p

/-- `_fill_missing_params(params)` of `metpy_wrapper.py`: the four rule
blocks run in source order on the in-place-updated mapping. -/
def fillMissingParams {α : Type} (O : DerivOracles α) (p : PyDict α) : PyDict α :=
  fillParcel O (fillPressure O (fillMixingRatio O (fillDewpoint O p)))

/-- A value produced by a vectorized library call: a plain scalar, a plain
1-D array, or a pint quantity (magnitudes plus printed unit string). -/
inductive VecResult where
  | scalar (x : Option ℚ)
  | arr (xs : List (Option ℚ))
  | qtyScalar (x : Option ℚ) (u : String)
  | qtyArr (xs : List (Option ℚ)) (u : String)
deriving DecidableEq, Repr

/-- A full vectorized return value: single, or a tuple of two (the
two-output convective-energy function). -/
inductive LibResult where
  | single (r : VecResult)
  | tuple2 (a b : VecResult)
deriving DecidableEq, Repr

/-- An argument of the vectorized call: a prepared quantity array or a raw
caller-supplied extra keyword value. -/
inductive VArg where
  | qty (q : VQ)
  | raw (v : Value)
deriving DecidableEq, Repr

/-- An argument/return value of a per-record (row-wise) call: a raw Python
value or a unit-tagged numeric scalar. -/
inductive FVal where
  | plain (v : Value)
  | qty (x : ℚ) (u : String)
deriving DecidableEq, Repr

/-- One function of the external calculation library: its declared
parameter names (in signature order) and its behaviour on whole-array and
per-record arguments.  `Except.error e` models a raised exception with
`str(e) = e`. -/
structure LibFunc where
  params : List String
  vecImpl : PyDict VArg → Except String LibResult
  rowImpl : PyDict FVal → Except String FVal

/-- The external `metpy.calc` module: named functions plus the derivation
oracles used by `_fill_missing_params` at array and at scalar types. -/
structure Library where
  funcs : PyDict LibFunc
  vecOracles : DerivOracles VQ
  rowOracles : DerivOracles FVal

/-- The argument-building loop of `call_metpy_function_vectorized`: for
each declared parameter, the matching quantity if present, else the
caller-supplied extra value if present, else omitted. -/
def buildVecArgs (params : List String) (q : PyDict VQ) (extra : Rec) : PyDict VArg :=
  params.filterMap (fun pn =>
    match dictGet q pn with
    | some v => some (pn, VArg.qty v)
    | none => (dictGet extra pn).map (fun v => (pn, VArg.raw v)))

/-- `call_metpy_function_vectorized(func_name, quantities, extra_kwargs)`
of `metpy_wrapper.py`.  The `(result, error_message)` pair of the source
is an `Except`: `.error` is the `err` branch (function missing from the
library, or the call raised). -/
def call_metpy_function_vectorized (L : Library) (func_name : String)
    (quantities : PyDict VQ) (extra : Rec) : Except String LibResult :=
  match dictGet L.funcs func_name with
  | none => .error ("MetPy 不包含函数 " ++ func_name)
  | some f =>
      let q := fillMissingParams L.vecOracles quantities
      f.vecImpl (buildVecArgs f.params q extra)

/-- The absolute-temperature fix of the result writers: pint prints a
plain Kelvin quantity's units as "kelvin", and `.to(degC)` subtracts
273.15; for any other unit string the guarded conversion either does not
trigger or raises and is caught, leaving the magnitude unchanged. -/
def kelvinFix (u : String) (x : ℚ) : ℚ :=
  if strLower u = "kelvin" then x - 27315 / 100 else x

/-- The extracted magnitude array inside `postprocess_result_to_records`:
a true scalar (for which `np.isscalar` is True — a Python/numpy number
such as a scalar quantity's `.magnitude`), a 1-D numeric array, a 0-d
ndarray (`np.asarray` of a plain non-quantity scalar, for which
`np.isscalar` is False and `arr.shape[0]` raises), or an array of
non-numeric objects (a tuple result reaching the scalar writer). -/
inductive Mag where
  | scalar (x : Option ℚ)
  | arr (xs : List (Option ℚ))
  | zeroDim (x : Option ℚ)
  | objArr (len : Nat)
deriving DecidableEq, Repr

/-- Magnitude extraction of `postprocess_result_to_records` (lines
197-208): a quantity contributes its `.magnitude` (a true scalar or a
1-D array), converting Kelvin results to Celsius; a non-quantity value
goes through `np.asarray`, which turns a plain scalar into a 0-d ndarray
and a tuple into an object array. -/
def extractMag : LibResult → Mag
  | .single (.scalar x) => .zeroDim x
  | .single (.arr xs) => .arr xs
  | .single (.qtyScalar x u) => .scalar (x.map (kelvinFix u))
  | .single (.qtyArr xs u) => .arr (xs.map (fun v => v.map (kelvinFix u)))
  | .tuple2 _ _ => .objArr 2

/-- The length-reconciliation block of `postprocess_result_to_records`
(lines 210-225), producing the final length-`n` value array: broadcast a
true scalar (`np.isscalar` → `np.repeat(float(mag), n)`) or a one-element
array; otherwise clip/pad with nan.  A 0-d ndarray is NOT `np.isscalar`,
so it reaches `arr.shape[0]`, which raises IndexError on shape `()`,
caught at line 224 into `np.full(n, nan)`: every record gets the nan
sentinel.  Entries of a non-numeric object array all fail float
conversion (or the object-to-float assignment raises, likewise caught),
so they also all come out as the nan sentinel. -/
def postprocessVals (m : Mag) (n : Nat) : List (Option ℚ) :=
  match m with
  | .scalar x => List.replicate n x
  | .arr xs =>
      if xs.length = n then xs
      else
        match xs with
        | [x] => List.replicate n x
        | _ => xs.take n ++ List.replicate (n - xs.length) none
  | .zeroDim _ => List.replicate n none
  | .objArr _ => List.replicate n none

/-- The nan-to-null write of line 231. -/
def optToValue : Option ℚ → Value
  | none => Value.null
  | some x => Value.num x

/-- `postprocess_result_to_records(result, records, out_col, units)` of
`metpy_wrapper.py`: write the reconciled values into a copy of each
record under `out_col`. -/
def postprocess_result_to_records (result : LibResult) (records : List Rec)
    (out_col : String) : List Rec :=
  let vals := postprocessVals (extractMag result) records.length
  (records.zip vals).map (fun p => dictSet p.1 out_col (optToValue p.2))

/-- How one record fared in the row-wise fallback: numeric success
(carrying the unrounded value collected into `result_vals`), non-numeric
success (result column holds `str(out_v)`), or per-record failure. -/
inductive RowTag where
  | resNum (v : ℚ)
  | resStr
  | errTag
deriving DecidableEq, Repr

/-- The kwargs-building loop of the fallback (lines 266-279): parameter
name directly in the record, else via the column map, else from
extra_kwargs, else omitted. -/
def buildRowKwargs (params : List String) (rec : Rec) (colmap : PyDict String)
    (extra : Rec) : Rec :=
  params.filterMap (fun pn =>
    match dictGet rec pn with
    | some v => some (pn, v)
    | none =>
        match (dictGet colmap pn).bind (fun cn => dictGet rec cn) with
        | some v => some (pn, v)
        | none => (dictGet extra pn).map (fun v => (pn, v)))

/-- The unit-attachment loop of the fallback (lines 281-289): a plain
numeric scalar whose parameter name has a (non-empty) schema unit gets
that unit attached; everything else is passed through unchanged. -/
def attachUnits (schema : Schema) (kwargs : Rec) : PyDict FVal :=
  kwargs.map (fun p => (p.1,
    match p.2 with
    | Value.num x =>
        match (dictGet schema p.1).bind SchemaEntry.unit with
        | some u => if u.isEmpty then FVal.plain (Value.num x) else FVal.qty x u
        | none => FVal.plain (Value.num x)
    | v => FVal.plain v))

/-- Result extraction of the fallback (lines 295-304): take `.magnitude`
(Kelvin converted to Celsius, any conversion error keeping the raw
magnitude); a non-quantity result is used as-is. -/
def rowExtract : FVal → FVal
  | .qty x u => .plain (Value.num (kelvinFix u x))
  | v => v

/-- `float(out_v)` of line 306: numbers and parsable strings succeed,
null and unparsable strings raise (→ `none`). -/
def fvalFloat : FVal → Option ℚ
  | .qty x _ => some x
  | .plain (Value.num x) => some x
  | .plain (Value.str s) => parseDecimal s
  | .plain Value.null => none

/-- `str(out_v)` of line 312 (only reached when `float(out_v)` failed,
i.e. on null or an unparsable string). -/
def fvalRepr : FVal → String
  | .plain (Value.str s) => s
  | .plain Value.null => "None"
  | .plain (Value.num x) => toString x
  | .qty x u => toString x ++ " " ++ u

/-- Python `round(x, 4)` (half-tie direction differs from banker's
rounding but no claim depends on ties). -/
def round4 (x : ℚ) : ℚ := (round (x * 10000) : ℤ) / 10000

/-- The result-conversion tail of one fallback iteration (lines 295-312):
extract the magnitude, convert to float, and append `<function>_result`
(rounded on numeric success, `str(out_v)` otherwise). -/
def fallbackRowOut (func_name : String) (rec : Rec) (out : FVal) : Rec × RowTag :=
  let outv := rowExtract out
  match fvalFloat outv with
  | some x => (dictSet rec (func_name ++ "_result") (Value.num (round4 x)), .resNum x)
  | none => (dictSet rec (func_name ++ "_result") (Value.str (fvalRepr outv)), .resStr)

/-- One iteration of the row-wise fallback loop (lines 263-318): the
processed copy of the record plus how it fared. -/
def fallbackRow (f : LibFunc) (O : DerivOracles FVal) (func_name : String)
    (schema : Schema) (colmap : PyDict String) (extra : Rec) (rec : Rec) :
    Rec × RowTag :=
  let kw := fillMissingParams O (attachUnits schema (buildRowKwargs f.params rec colmap extra))
  match f.rowImpl kw with
  | .error e => (dictSet rec (func_name ++ "_error") (Value.str e), .errTag)
  | .ok out => fallbackRowOut func_name rec out

/-- Statistics dicts hold numeric entries. -/
abbrev Stats := PyDict ℚ

/-- A returned outcome dict; an `Option.none` field is a key that is
absent from the returned Python dict. -/
structure Outcome where
  status : String
  message : String
  processed : Option (List Rec)
  stats : Option Stats
  result_field : Option String
deriving DecidableEq, Repr

def qMean (l : List ℚ) : ℚ := l.sum / l.length

def qMin : List ℚ → ℚ
  | [] => 0
  | x :: r => r.foldl min x

def qMax : List ℚ → ℚ
  | [] => 0
  | x :: r => r.foldl max x

/-- The vals-collection comprehension of the success paths:
`[rec[c] for rec in processed if rec.get(c) is not None]`.  The writer
stores only numbers or null at `c`, so the collected values are numbers. -/
def numsAt (recs : List Rec) (c : String) : List ℚ :=
  recs.filterMap (fun r =>
    match dictGet r c with
    | some (Value.num x) => some x
    | _ => none)

/-- The success-path statistics (lines 328-330 / 335-337). -/
def successStats (vals : List ℚ) : Stats :=
  if vals.isEmpty then []
  else [("mean", qMean vals), ("min", qMin vals), ("max", qMax vals),
        ("count", (vals.length : ℚ))]

/-- `out_col or f"{func_name}_result"` of line 332 (Python `or`: None and
the empty string both fall back to the default). -/
def outColName (func_name : String) (out_col : Option String) : String :=
  match out_col with
  | some s => if s.isEmpty then func_name ++ "_result" else s
  | none => func_name ++ "_result"

/-- The non-tuple success branch of `compute_with_metpy` (lines 332-338). -/
def normalSuccessOutcome (res : LibResult) (records : List Rec)
    (func_name : String) (out_col : Option String) : Outcome :=
  let out_col_name := outColName func_name out_col
  let processed := postprocess_result_to_records res records out_col_name
  let vals := numsAt processed out_col_name
  ⟨"success", func_name ++ " 计算完成", some processed, some (successStats vals),
    some out_col_name⟩

/-- The `cape_cin` tuple branch of `compute_with_metpy` (lines 324-331). -/
def capeOutcome (a b : VecResult) (records : List Rec) (func_name : String) : Outcome :=
  let processed := postprocess_result_to_records (.single a) records "cape_result"
  let processed := postprocess_result_to_records (.single b) processed "cin_result"
  let vals := numsAt processed "cape_result"
  ⟨"success", func_name ++ " 计算完成", some processed, some (successStats vals),
    some "cape_result"⟩

/-- The row-wise fallback branch of `compute_with_metpy` (lines 260-322),
entered after `getattr(mpcalc, func_name)` succeeded. -/
def fallbackOutcome (f : LibFunc) (L : Library) (records : List Rec)
    (func_name : String) (schema : Schema) (colmap : PyDict String)
    (extra : Rec) (err : String) : Outcome :=
  let rows := records.map (fallbackRow f L.rowOracles func_name schema colmap extra)
  let result_vals := rows.filterMap (fun rw =>
    match rw.2 with
    | .resNum v => some v
    | _ => none)
  let stats : Stats :=
    if result_vals.isEmpty then []
    else [("mean", qMean result_vals), ("count", (result_vals.length : ℚ))]
  ⟨"partial", "向量化失败，已回退到逐条计算（可能部分失败）：" ++ err,
    some (rows.map Prod.fst), some stats, none⟩

/-- The empty-input outcome of `compute_with_metpy` (line 248). -/
def failEmpty : Outcome := ⟨"fail", "数据为空", some [], none, none⟩

/-- The Column Map construction of `compute_with_metpy` (lines 250-251):
`cols = list(records[0].keys())` — built solely from the keys of the
FIRST record. -/
def computeColumnMap (records : List Rec) (schema : Schema) : PyDict String :=
  match records with
  | [] => []
  | r0 :: _ => build_column_map (dictKeys r0) schema

/-- `compute_with_metpy(records, func_name, schema, out_col, extra_kwargs)`
of `metpy_wrapper.py`.  `Except.error` models an exception escaping the
function: in the fallback branch `func = getattr(mpcalc, func_name)`
(line 262) raises AttributeError when the function does not exist. -/
def compute_with_metpy (L : Library) (records : List Rec) (func_name : String)
    (schema : Schema) (out_col : Option String) (extra : Rec) :
    Except String Outcome :=
  match records with
  | [] => .ok failEmpty
  | _ :: _ =>
      let colmap := computeColumnMap records schema
      let mapped := (normalize_units records colmap schema).1
      let quantities := prepare_quantities mapped
      match call_metpy_function_vectorized L func_name quantities extra with
      | .error err =>
          match dictGet L.funcs func_name with
          | none => .error ("AttributeError: module metpy.calc has no attribute " ++ func_name)
          | some f => .ok (fallbackOutcome f L records func_name schema colmap extra err)
      | .ok res =>
          match res with
          | .tuple2 a b =>
              if func_name = "cape_cin" then .ok (capeOutcome a b records func_name)
              else .ok (normalSuccessOutcome res records func_name out_col)
          | .single _ => .ok (normalSuccessOutcome res records func_name out_col)

/-- The always-failing stub of `_make_tool_from_name` in `metpy_calcs.py`
(lines 175-179), returned when importing `metpy_wrapper` fails: a dict
with only `status` and `message`. -/
def error_tool (e : String) (records : List Rec) (extra : Rec) : Outcome :=
  ⟨"fail", "无法导入metpy_wrapper模块: " ++ e, none, none, none⟩

/-- The generated tool closure of `_make_tool_from_name` in
`metpy_calcs.py` (lines 181-198): delegate to `compute_with_metpy`, and
turn any raised exception into a dict with only `status` and `message`. -/
def tool_call (L : Library) (name : String) (records : List Rec) (extra : Rec) : Outcome :=
  match compute_with_metpy L records name DEFAULT_SCHEMA none extra with
  | .ok o => o
  | .error e => ⟨"fail", e, none, none, none⟩

/-! ## Basic dictionary lemmas -/

theorem dictGet_set_self {β : Type} (d : PyDict β) (k : String) (v : β) :
    dictGet (dictSet d k v) k = some v := by
  induction d with
  | nil => simp [dictSet, dictGet]
  | cons p rest ih =>
      obtain ⟨k', v'⟩ := p
      by_cases h : k' = k
      · simp [dictSet, h, dictGet]
      · simp [dictSet, h, dictGet, ih]

theorem dictGet_set_ne {β : Type} (d : PyDict β) (k k' : String) (v : β)
    (h : k' ≠ k) : dictGet (dictSet d k v) k' = dictGet d k' := by
  induction d with
  | nil => simp [dictSet, dictGet, h, Ne.symm h]
  | cons p rest ih =>
      obtain ⟨k0, v0⟩ := p
      by_cases h0 : k0 = k
      · subst h0
        simp [dictSet, dictGet, Ne.symm h]
      · by_cases h1 : k0 = k'
        · simp [dictSet, h0, dictGet, h1, h]
        · simp [dictSet, h0, dictGet, h1, ih]

theorem dictKeys_set_grows {β : Type} (d : PyDict β) (k : String) (v : β) :
    dictKeys d <+: dictKeys (dictSet d k v) := by
  induction d with
  | nil => simp [dictSet, dictKeys]
  | cons p rest ih =>
      obtain ⟨k0, v0⟩ := p
      by_cases h0 : k0 = k
      · simp [dictSet, h0, dictKeys]
      · simpa [dictSet, h0, dictKeys] using ih

theorem dictGet_eq_none_iff {β : Type} (d : PyDict β) (c : String) :
    dictGet d c = none ↔ c ∉ dictKeys d := by
  induction d with
  | nil => simp [dictGet, dictKeys]
  | cons p rest ih =>
      obtain ⟨k0, v0⟩ := p
      by_cases h0 : k0 = c
      · simp [dictGet, h0, dictKeys]
      · simp [dictGet, h0, dictKeys, ih, Ne.symm h0]

/-! ## C3 support: build_column_map -/

theorem build_column_map_keys_sublist (cols : List String) (schema : Schema) :
    (dictKeys (build_column_map cols schema)).Sublist (dictKeys schema) := by
  induction schema with
  | nil => simp [build_column_map, dictKeys]
  | cons p rest ih =>
      obtain ⟨k0, m0⟩ := p
      simp only [build_column_map, List.filterMap] at ih ⊢
      cases h : findColForAliases m0.aliases (lowcols cols) with
      | none => simpa [dictKeys, h] using (ih.trans (List.sublist_cons_self _ _))
      | some col => simpa [dictKeys, h] using ih.cons₂ k0

theorem build_column_map_get_none (cols : List String) (schema : Schema)
    (c : String) (hc : c ∉ dictKeys schema) :
    dictGet (build_column_map cols schema) c = none := by
  rw [dictGet_eq_none_iff]
  exact fun h => hc ((build_column_map_keys_sublist cols schema).mem h)

theorem build_column_map_cons (cols : List String) (k0 : String)
    (m0 : SchemaEntry) (rest : Schema) :
    build_column_map cols ((k0, m0) :: rest) =
      match findColForAliases m0.aliases (lowcols cols) with
      | some col => (k0, col) :: build_column_map cols rest
      | none => build_column_map cols rest := by
  simp only [build_column_map, List.filterMap_cons]
  cases findColForAliases m0.aliases (lowcols cols) <;> simp

theorem build_column_map_get (cols : List String) (schema : Schema)
    (hnd : (dictKeys schema).Nodup) (c : String) (m : SchemaEntry)
    (hc : dictGet schema c = some m) :
    dictGet (build_column_map cols schema) c =
      findColForAliases m.aliases (lowcols cols) := by
  induction schema with
  | nil => simp [dictGet] at hc
  | cons p rest ih =>
      obtain ⟨k0, m0⟩ := p
      simp only [dictKeys, List.map_cons, List.nodup_cons] at hnd
      rw [build_column_map_cons]
      by_cases h0 : k0 = c
      · subst h0
        simp only [dictGet, if_pos rfl] at hc
        have hinj : m0 = m := by injection hc
        subst hinj
        cases h : findColForAliases m0.aliases (lowcols cols) with
        | none =>
            simpa [h] using build_column_map_get_none cols rest k0 hnd.1
        | some col => simp [dictGet, h]
      · simp only [dictGet, if_neg h0] at hc
        have hrec := ih hnd.2 hc
        cases h : findColForAliases m0.aliases (lowcols cols) with
        | none => simpa [h] using hrec
        | some col => simpa [dictGet, h, h0] using hrec

/-- C3: the Column Resolver maps each canonical field to at most one actual
column (no duplicate canonical keys in the resulting Column Map); the
binding of a canonical field is obtained by iterating its aliases in
declared order and taking the first alias that — case-insensitively —
equals, is contained in, or contains some (lowered) column name, bound to
the first such column; a canonical field with no matching alias is simply
absent from the Column Map rather than an error. -/
theorem C3_column_resolver (cols : List String) (schema : Schema)
    (hnd : (dictKeys schema).Nodup) (c : String) (m : SchemaEntry)
    (hc : dictGet schema c = some m) :
    (dictKeys (build_column_map cols schema)).Nodup ∧
    dictGet (build_column_map cols schema) c =
      m.aliases.findSome? (fun a =>
        (List.find? (fun p => aliasMatch (strLower a) p.1) (lowcols cols)).map Prod.snd) ∧
    (m.aliases.findSome? (fun a => findColForAlias a (lowcols cols)) = none →
      c ∉ dictKeys (build_column_map cols schema)) := by
  have hget := build_column_map_get cols schema hnd c m hc
  refine ⟨(build_column_map_keys_sublist cols schema).nodup hnd, ?_, ?_⟩
  · simpa [findColForAliases, findColForAlias] using hget
  · intro hnone
    rw [← dictGet_eq_none_iff, hget]
    simpa [findColForAliases] using hnone

/-- Witness for C3 at the schema and Chinese column names of the source:
`dewpoint` resolves to column `温度` through its second alias
`露点温度(℃)`, which contains the lowered column name. -/
theorem C3_column_resolver_witness :
    ((dictKeys DEFAULT_SCHEMA).Nodup ∧
      dictGet DEFAULT_SCHEMA "dewpoint" =
        some ⟨["露点", "露点温度(℃)"], some "degC", false, some (-90, 60)⟩) ∧
    ((dictKeys (build_column_map ["温度", "相对湿度"] DEFAULT_SCHEMA)).Nodup ∧
      dictGet (build_column_map ["温度", "相对湿度"] DEFAULT_SCHEMA) "dewpoint" =
        (["露点", "露点温度(℃)"] : List String).findSome? (fun a =>
          (List.find? (fun p => aliasMatch (strLower a) p.1)
            (lowcols ["温度", "相对湿度"])).map Prod.snd)) :=
  ⟨⟨by decide, by decide⟩,
    (C3_column_resolver ["温度", "相对湿度"] DEFAULT_SCHEMA (by decide) "dewpoint"
      ⟨["露点", "露点温度(℃)"], some "degC", false, some (-90, 60)⟩ (by decide)).1,
    (C3_column_resolver ["温度", "相对湿度"] DEFAULT_SCHEMA (by decide) "dewpoint"
      ⟨["露点", "露点温度(℃)"], some "degC", false, some (-90, 60)⟩ (by decide)).2.1⟩

/-! ## C4/C5 support: normalize_units -/

theorem normStep_fst (records : List Rec) (schema : Schema) (n : Nat)
    (acc : PyDict (List (Option ℚ) × Option String) × List String)
    (p : String × String) :
    (normStep records schema n acc p).1 =
      dictSet acc.1 p.1 (colArray records p.2, (dictGet schema p.1).bind SchemaEntry.unit) := by
  unfold normStep
  cases (dictGet schema p.1).bind SchemaEntry.range with
  | none => rfl
  | some r =>
      obtain ⟨lo, hi⟩ := r
      by_cases h : warnCond (colArray records p.2) n lo hi
      · simp [h]
      · simp [h]

/-- The per-field warning decision of the `normalize_units` loop: a warning
for a field iff its `bad_count` is positive and exceeds 1% of
`max(1, n)` where `n` is the total record count. -/
def warnOf (records : List Rec) (schema : Schema) (n : Nat)
    (p : String × String) : Option String :=
  match (dictGet schema p.1).bind SchemaEntry.range with
  | some (lo, hi) =>
      if warnCond (colArray records p.2) n lo hi then
        some (warnMsg p.1 (badCount (colArray records p.2) lo hi) lo hi)
      else none
  | none => none

theorem normStep_snd (records : List Rec) (schema : Schema) (n : Nat)
    (acc : PyDict (List (Option ℚ) × Option String) × List String)
    (p : String × String) :
    (normStep records schema n acc p).2 = acc.2 ++ (warnOf records schema n p).toList := by
  unfold normStep warnOf
  cases (dictGet schema p.1).bind SchemaEntry.range with
  | none => simp
  | some r =>
      obtain ⟨lo, hi⟩ := r
      by_cases h : warnCond (colArray records p.2) n lo hi
      · simp [h]
      · simp [h]

theorem normFold_snd (records : List Rec) (schema : Schema) (n : Nat) :
    ∀ (l : PyDict String) (acc : PyDict (List (Option ℚ) × Option String) × List String),
    (l.foldl (normStep records schema n) acc).2 =
      acc.2 ++ l.filterMap (warnOf records schema n) := by
  intro l
  induction l with
  | nil => simp
  | cons p rest ih =>
      intro acc
      rw [List.foldl_cons, ih, List.filterMap_cons]
      rw [normStep_snd]
      cases warnOf records schema n p <;> simp

theorem normFold_fst_not_mem (records : List Rec) (schema : Schema) (n : Nat)
    (c : String) :
    ∀ (l : PyDict String) (acc : PyDict (List (Option ℚ) × Option String) × List String),
    c ∉ dictKeys l →
    dictGet (l.foldl (normStep records schema n) acc).1 c = dictGet acc.1 c := by
  intro l
  induction l with
  | nil => intro acc _; simp
  | cons p rest ih =>
      intro acc hc
      simp only [dictKeys, List.map_cons, List.mem_cons] at hc
      push_neg at hc
      rw [List.foldl_cons, ih _ (by simpa [dictKeys] using hc.2)]
      rw [normStep_fst, dictGet_set_ne _ _ _ _ hc.1]

theorem normFold_fst_get (records : List Rec) (schema : Schema) (n : Nat)
    (c col : String) :
    ∀ (l : PyDict String) (acc : PyDict (List (Option ℚ) × Option String) × List String),
    (dictKeys l).Nodup → dictGet l c = some col →
    dictGet (l.foldl (normStep records schema n) acc).1 c =
      some (colArray records col, (dictGet schema c).bind SchemaEntry.unit) := by
  intro l
  induction l with
  | nil => intro acc _ hc; simp [dictGet] at hc
  | cons p rest ih =>
      intro acc hnd hc
      obtain ⟨k0, col0⟩ := p
      simp only [dictKeys, List.map_cons, List.nodup_cons] at hnd
      by_cases h0 : k0 = c
      · subst h0
        simp only [dictGet, if_pos rfl] at hc
        obtain rfl : col0 = col := by injection hc
        rw [List.foldl_cons,
          normFold_fst_not_mem records schema n k0 rest _ (by simpa [dictKeys] using hnd.1)]
        rw [normStep_fst, dictGet_set_self]
      · simp only [dictGet, if_neg h0] at hc
        rw [List.foldl_cons, ih _ hnd.2 hc]

theorem normFold_fst_eq (records : List Rec) (schema : Schema) (n : Nat) :
    ∀ (l : PyDict String) (acc : PyDict (List (Option ℚ) × Option String) × List String),
    (l.foldl (normStep records schema n) acc).1 =
      l.foldl (fun m p =>
        dictSet m p.1 (colArray records p.2, (dictGet schema p.1).bind SchemaEntry.unit)) acc.1 := by
  intro l
  induction l with
  | nil => intro acc; rfl
  | cons p rest ih =>
      intro acc
      rw [List.foldl_cons, List.foldl_cons, ih, normStep_fst]

/-- C4: the Unit Normalizer is total (never raises: every Lean function
is), and for every record sequence and Column Map, each canonical field
bound in the map yields an array whose length equals the record count,
whose i-th entry is the i-th record's raw value coerced to a number by
`coerceFloat` (null, missing or unparsable values becoming the nan
sentinel `none`), tagged with the schema's declared unit. -/
theorem C4_unit_normalizer (records : List Rec) (colmap : PyDict String)
    (schema : Schema) (hnd : (dictKeys colmap).Nodup) (c col : String)
    (hc : dictGet colmap c = some col) :
    dictGet (normalize_units records colmap schema).1 c =
      some (colArray records col, (dictGet schema c).bind SchemaEntry.unit) ∧
    (colArray records col).length = records.length ∧
    (∀ i (h1 : i < records.length) (h2 : i < (colArray records col).length),
      (colArray records col).get ⟨i, h2⟩ =
        coerceFloat (dictGet (records.get ⟨i, h1⟩) col)) := by
  refine ⟨?_, by simp [colArray], ?_⟩
  · exact normFold_fst_get records schema records.length c col colmap ([], []) hnd hc
  · intro i h1 h2
    simp [colArray]

/-- Witness records for the Unit Normalizer claims: one numeric value, one
null, one record missing the column entirely. -/
def wRecs : List Rec := [[("t", Value.num 20)], [("t", Value.null)], [("u", Value.num 5)]]

/-- Witness for C4 on three concrete records (number, null, missing
column): the array has length 3 and entries 20, nan, nan, tagged degC. -/
theorem C4_unit_normalizer_witness :
    ((dictKeys ([("temperature", "t")] : PyDict String)).Nodup ∧
      dictGet ([("temperature", "t")] : PyDict String) "temperature" = some "t") ∧
    (dictGet (normalize_units wRecs [("temperature", "t")] DEFAULT_SCHEMA).1 "temperature" =
        some (colArray wRecs "t", (dictGet DEFAULT_SCHEMA "temperature").bind SchemaEntry.unit) ∧
      (colArray wRecs "t").length = wRecs.length) :=
  ⟨⟨by decide, by decide⟩,
    (C4_unit_normalizer wRecs [("temperature", "t")] DEFAULT_SCHEMA (by decide)
      "temperature" "t" (by decide)).1,
    (C4_unit_normalizer wRecs [("temperature", "t")] DEFAULT_SCHEMA (by decide)
      "temperature" "t" (by decide)).2.1⟩

/-- C5 (amended): for each canonical field of the Column Map (in map
order) with a declared range, the Unit Normalizer emits exactly one
warning message iff `bad_count > 0` and `bad_count` exceeds 1% of
`max(1, n)` where `n` is the TOTAL record count — not, as claimed, the
count of non-missing values — and the mapped arrays (hence the
computation and its results) are exactly the warning-independent fold,
so warnings never block or alter the computation. -/
theorem C5_range_warning_amended (records : List Rec) (colmap : PyDict String)
    (schema : Schema) :
    (normalize_units records colmap schema).2 =
      colmap.filterMap (fun p =>
        match (dictGet schema p.1).bind SchemaEntry.range with
        | some (lo, hi) =>
            if warnCond (colArray records p.2) records.length lo hi then
              some (warnMsg p.1 (badCount (colArray records p.2) lo hi) lo hi)
            else none
        | none => none) ∧
    (normalize_units records colmap schema).1 =
      colmap.foldl (fun m p =>
        dictSet m p.1 (colArray records p.2, (dictGet schema p.1).bind SchemaEntry.unit)) [] := by
  constructor
  · rw [normalize_units, normFold_snd records schema records.length colmap ([], [])]
    rfl
  · rw [normalize_units, normFold_fst_eq records schema records.length colmap ([], [])]

/-- Records for the C5 counterexample: 90 records missing the column, 9
in-range values, 1 out-of-range value. -/
def recsMostlyMissing : List Rec :=
  List.replicate 90 [] ++ List.replicate 9 [("t", Value.num 20)] ++ [[("t", Value.num 1000)]]

/-- C5 counterexample: the schema declares range (-90, 60) for
temperature; of the 10 non-missing values, 1 (= 10%, strictly more than
1%) is out of range, so the claim demands a warning; but the code divides
`bad_count` by the total record count (1/100, not strictly above the 1%
threshold) and emits no warning. -/
theorem C5_range_warning_cex :
    (dictGet DEFAULT_SCHEMA "temperature").map SchemaEntry.range =
      some (some (-90, 60)) ∧
    recsMostlyMissing.length = 100 ∧
    (colArray recsMostlyMissing "t").countP (fun v => v.isSome) = 10 ∧
    badCount (colArray recsMostlyMissing "t") (-90) 60 = 1 ∧
    ((1 : ℚ) / 10 > 1 / 100) ∧
    (normalize_units recsMostlyMissing [("temperature", "t")] DEFAULT_SCHEMA).2 = [] := by
  refine ⟨by decide, by decide, by decide, by decide, by norm_num, ?_⟩
  rw [normalize_units,
    normFold_snd recsMostlyMissing DEFAULT_SCHEMA recsMostlyMissing.length
      [("temperature", "t")] ([], [])]
  have hlen : recsMostlyMissing.length = 100 := by decide
  have hbc : badCount (colArray recsMostlyMissing "t") (-90) 60 = 1 := by decide
  have hnot : ¬ warnCond (colArray recsMostlyMissing "t") 100 (-90) 60 := by
    unfold warnCond
    rw [hbc]
    norm_num
  have hdg : (dictGet DEFAULT_SCHEMA "temperature").bind SchemaEntry.range =
      some ((-90 : ℚ), (60 : ℚ)) := by decide
  simp [warnOf, hlen, hdg, hnot]

/-! ## C6 support: the four rule blocks of _fill_missing_params -/

theorem dictMem_false_get {β : Type} (d : PyDict β) (k : String)
    (h : dictMem d k = false) : dictGet d k = none := by
  revert h; unfold dictMem; cases dictGet d k <;> simp

theorem fillDewpoint_shape {α : Type} (O : DerivOracles α) (p : PyDict α) :
    fillDewpoint O p = p ∨
    (dictGet p "dewpoint" = none ∧
      ((dictMem p "temperature" = true ∧ dictMem p "relative_humidity" = true) ∨
        (dictMem p "temperature" = true ∧ dictMem p "specific_humidity" = true ∧
          dictMem p "pressure" = true)) ∧
      ∃ d, fillDewpoint O p = dictSet p "dewpoint" d) := by
  unfold fillDewpoint
  by_cases h0 : dictMem p "dewpoint"
  · simp [h0]
  · rw [Bool.not_eq_true] at h0
    have hd0 := dictMem_false_get p "dewpoint" h0
    simp only [h0, Bool.false_eq_true, if_false]
    by_cases h1 : dictMem p "temperature" && dictMem p "relative_humidity"
    · simp only [h1, if_true]
      rw [Bool.and_eq_true] at h1
      obtain ⟨t, ht⟩ := Option.isSome_iff_exists.mp (by simpa [dictMem] using h1.1)
      obtain ⟨rh, hr⟩ := Option.isSome_iff_exists.mp (by simpa [dictMem] using h1.2)
      simp only [ht, hr]
      cases hd : O.dewpoint_from_relative_humidity t rh with
      | none => exact Or.inl rfl
      | some d => exact Or.inr ⟨hd0, Or.inl h1, d, rfl⟩
    · simp only [Bool.not_eq_true] at h1
      simp only [h1, Bool.false_eq_true, if_false]
      by_cases h2 : dictMem p "temperature" && dictMem p "specific_humidity" &&
          dictMem p "pressure"
      · simp only [h2, if_true]
        rw [Bool.and_eq_true, Bool.and_eq_true] at h2
        obtain ⟨t, ht⟩ := Option.isSome_iff_exists.mp (by simpa [dictMem] using h2.1.1)
        obtain ⟨sh, hs⟩ := Option.isSome_iff_exists.mp (by simpa [dictMem] using h2.1.2)
        obtain ⟨pr, hp⟩ := Option.isSome_iff_exists.mp (by simpa [dictMem] using h2.2)
        simp only [ht, hs, hp]
        cases hd : (O.mixing_ratio_from_specific_humidity sh).bind (fun mr =>
            (O.relative_humidity_from_mixing_ratio pr t mr).bind (fun rh =>
              O.dewpoint_from_relative_humidity t rh)) with
        | none => exact Or.inl rfl
        | some d =>
            exact Or.inr ⟨hd0, Or.inr ⟨h2.1.1, h2.1.2, h2.2⟩, d, rfl⟩
      · simp only [Bool.not_eq_true] at h2
        simp [h2]

theorem fillMixingRatio_shape {α : Type} (O : DerivOracles α) (p : PyDict α) :
    fillMixingRatio O p = p ∨
    (dictGet p "mixing_ratio" = none ∧
      (dictMem p "specific_humidity" = true ∨
        (dictMem p "pressure" = true ∧ dictMem p "temperature" = true ∧
          dictMem p "relative_humidity" = true) ∨
        (dictMem p "pressure" = true ∧ dictMem p "dewpoint" = true)) ∧
      ∃ m, fillMixingRatio O p = dictSet p "mixing_ratio" m) := by
  unfold fillMixingRatio
  by_cases h0 : dictMem p "mixing_ratio"
  · simp [h0]
  · rw [Bool.not_eq_true] at h0
    have hm0 := dictMem_false_get p "mixing_ratio" h0
    simp only [h0, Bool.false_eq_true, if_false]
    by_cases h1 : dictMem p "specific_humidity"
    · simp only [h1, if_true]
      obtain ⟨sh, hs⟩ := Option.isSome_iff_exists.mp (by simpa [dictMem] using h1)
      simp only [hs]
      cases hd : O.mixing_ratio_from_specific_humidity sh with
      | none => exact Or.inl rfl
      | some m => exact Or.inr ⟨hm0, Or.inl (by simp [h1]), m, rfl⟩
    · rw [Bool.not_eq_true] at h1
      simp only [h1, Bool.false_eq_true, if_false]
      by_cases h2 : dictMem p "pressure" && dictMem p "temperature" &&
          dictMem p "relative_humidity"
      · simp only [h2, if_true]
        rw [Bool.and_eq_true, Bool.and_eq_true] at h2
        obtain ⟨pr, hp⟩ := Option.isSome_iff_exists.mp (by simpa [dictMem] using h2.1.1)
        obtain ⟨t, ht⟩ := Option.isSome_iff_exists.mp (by simpa [dictMem] using h2.1.2)
        obtain ⟨rh, hr⟩ := Option.isSome_iff_exists.mp (by simpa [dictMem] using h2.2)
        simp only [hp, ht, hr]
        cases hd : O.mixing_ratio_from_relative_humidity pr t rh with
        | none => exact Or.inl rfl
        | some m =>
            exact Or.inr ⟨hm0, Or.inr (Or.inl ⟨h2.1.1, h2.1.2, h2.2⟩), m, rfl⟩
      · rw [Bool.not_eq_true] at h2
        simp only [h2, Bool.false_eq_true, if_false]
        by_cases h3 : dictMem p "pressure" && dictMem p "dewpoint"
        · simp only [h3, if_true]
          rw [Bool.and_eq_true] at h3
          obtain ⟨pr, hp⟩ := Option.isSome_iff_exists.mp (by simpa [dictMem] using h3.1)
          obtain ⟨dp, hdp⟩ := Option.isSome_iff_exists.mp (by simpa [dictMem] using h3.2)
          simp only [hp, hdp]
          cases hd : (O.saturation_vapor_pressure dp).bind (fun e => O.mixing_ratio e pr) with
          | none => exact Or.inl rfl
          | some m => exact Or.inr ⟨hm0, Or.inr (Or.inr h3), m, rfl⟩
        · rw [Bool.not_eq_true] at h3
          simp [h3]

theorem fillPressure_shape {α : Type} (O : DerivOracles α) (p : PyDict α) :
    fillPressure O p = p ∨
    (dictGet p "pressure" = none ∧
      (dictMem p "height" = true ∨ dictMem p "geopotential_height" = true) ∧
      ∃ v, fillPressure O p = dictSet p "pressure" v) := by
  unfold fillPressure
  by_cases h0 : dictMem p "pressure"
  · simp [h0]
  · rw [Bool.not_eq_true] at h0
    have hp0 := dictMem_false_get p "pressure" h0
    simp only [h0, Bool.false_eq_true, if_false]
    by_cases h1 : dictMem p "height"
    · simp only [h1, if_true]
      obtain ⟨hv, hh⟩ := Option.isSome_iff_exists.mp (by simpa [dictMem] using h1)
      simp only [hh]
      cases hd : O.height_to_pressure_std hv with
      | none => exact Or.inl rfl
      | some v => exact Or.inr ⟨hp0, Or.inl (by simp [h1]), v, rfl⟩
    · rw [Bool.not_eq_true] at h1
      simp only [h1, Bool.false_eq_true, if_false]
      by_cases h2 : dictMem p "geopotential_height"
      · simp only [h2, if_true]
        obtain ⟨gv, hg⟩ := Option.isSome_iff_exists.mp (by simpa [dictMem] using h2)
        simp only [hg]
        cases hd : (O.geopotential_to_height gv).bind O.height_to_pressure_std with
        | none => exact Or.inl rfl
        | some v => exact Or.inr ⟨hp0, Or.inr (by simp [h2]), v, rfl⟩
      · rw [Bool.not_eq_true] at h2
        simp [h2]

theorem fillParcel_shape {α : Type} (O : DerivOracles α) (p : PyDict α) :
    fillParcel O p = p ∨
    (dictGet p "parcel_profile" = none ∧
      (dictMem p "pressure" = true ∧ dictMem p "temperature" = true ∧
        dictMem p "dewpoint" = true) ∧
      ∃ v, fillParcel O p = dictSet p "parcel_profile" v) := by
  unfold fillParcel
  by_cases h0 : !dictMem p "parcel_profile" && dictMem p "pressure" &&
      dictMem p "temperature" && dictMem p "dewpoint"
  · simp only [h0, if_true]
    rw [Bool.and_eq_true, Bool.and_eq_true, Bool.and_eq_true] at h0
    have hn : dictGet p "parcel_profile" = none :=
      dictMem_false_get p "parcel_profile" (by simpa using h0.1.1.1)
    obtain ⟨pr, hp⟩ := Option.isSome_iff_exists.mp (by simpa [dictMem] using h0.1.1.2)
    obtain ⟨t, ht⟩ := Option.isSome_iff_exists.mp (by simpa [dictMem] using h0.1.2)
    obtain ⟨dp, hdp⟩ := Option.isSome_iff_exists.mp (by simpa [dictMem] using h0.2)
    simp only [hp, ht, hdp]
    cases hd : O.parcel_profile pr t dp with
    | none => exact Or.inl rfl
    | some v => exact Or.inr ⟨hn, ⟨h0.1.1.2, h0.1.2, h0.2⟩, v, rfl⟩
  · rw [Bool.not_eq_true] at h0
    simp [h0]

theorem shape_consequences {α : Type} {q p : PyDict α} {tgt : String} {C : Prop}
    (h : q = p ∨ (dictGet p tgt = none ∧ C ∧ ∃ v, q = dictSet p tgt v)) :
    (∀ k, k ≠ tgt → dictGet q k = dictGet p k) ∧
    (∀ k v, dictGet p k = some v → dictGet q k = some v) := by
  obtain rfl | ⟨hn, _, v, rfl⟩ := h
  · exact ⟨fun _ _ => rfl, fun _ _ hw => hw⟩
  · constructor
    · intro k hk
      exact dictGet_set_ne p tgt k v hk
    · intro k w hw
      by_cases hk : k = tgt
      · subst hk
        rw [hn] at hw
        cases hw
      · rw [dictGet_set_ne p tgt k v hk]
        exact hw

theorem fillMissingParams_get_ne {α : Type} (O : DerivOracles α) (p : PyDict α)
    (k : String) (h1 : k ≠ "dewpoint") (h2 : k ≠ "mixing_ratio")
    (h3 : k ≠ "pressure") (h4 : k ≠ "parcel_profile") :
    dictGet (fillMissingParams O p) k = dictGet p k := by
  unfold fillMissingParams
  rw [(shape_consequences (fillParcel_shape O _)).1 k h4,
      (shape_consequences (fillPressure_shape O _)).1 k h3,
      (shape_consequences (fillMixingRatio_shape O _)).1 k h2,
      (shape_consequences (fillDewpoint_shape O p)).1 k h1]

/-- C6: the Derived-Quantity Filler (1) never overwrites a quantity that is
already present; (2) adds at most the four derived targets; (3-6) each
target is synthesized only when it is absent and all prerequisite keys of
some branch of its rule are present in the mapping at the moment the rule
runs (the four rules run in source order on the in-place-updated mapping,
so quantities synthesized by an earlier rule count as present); and (7) a
failure inside a derivation rule (oracle returning `none`, the embedding
of a raised exception) is swallowed, leaving the target absent — shown
here for the first dewpoint branch. -/
theorem C6_derived_quantity_filler {α : Type} (O : DerivOracles α) (p : PyDict α) :
    (∀ k v, dictGet p k = some v → dictGet (fillMissingParams O p) k = some v) ∧
    (∀ k, dictGet p k = none → ¬ dictGet (fillMissingParams O p) k = none →
      k = "dewpoint" ∨ k = "mixing_ratio" ∨ k = "pressure" ∨ k = "parcel_profile") ∧
    (dictGet p "dewpoint" = none → ¬ dictGet (fillMissingParams O p) "dewpoint" = none →
      (dictMem p "temperature" = true ∧ dictMem p "relative_humidity" = true) ∨
      (dictMem p "temperature" = true ∧ dictMem p "specific_humidity" = true ∧
        dictMem p "pressure" = true)) ∧
    (dictGet p "mixing_ratio" = none →
      ¬ dictGet (fillMissingParams O p) "mixing_ratio" = none →
      dictMem (fillDewpoint O p) "specific_humidity" = true ∨
      (dictMem (fillDewpoint O p) "pressure" = true ∧
        dictMem (fillDewpoint O p) "temperature" = true ∧
        dictMem (fillDewpoint O p) "relative_humidity" = true) ∨
      (dictMem (fillDewpoint O p) "pressure" = true ∧
        dictMem (fillDewpoint O p) "dewpoint" = true)) ∧
    (dictGet p "pressure" = none →
      ¬ dictGet (fillMissingParams O p) "pressure" = none →
      dictMem (fillMixingRatio O (fillDewpoint O p)) "height" = true ∨
      dictMem (fillMixingRatio O (fillDewpoint O p)) "geopotential_height" = true) ∧
    (dictGet p "parcel_profile" = none →
      ¬ dictGet (fillMissingParams O p) "parcel_profile" = none →
      dictMem (fillPressure O (fillMixingRatio O (fillDewpoint O p))) "pressure" = true ∧
      dictMem (fillPressure O (fillMixingRatio O (fillDewpoint O p))) "temperature" = true ∧
      dictMem (fillPressure O (fillMixingRatio O (fillDewpoint O p))) "dewpoint" = true) ∧
    (dictGet p "dewpoint" = none →
      dictMem p "temperature" = true → dictMem p "relative_humidity" = true →
      (∀ a b, O.dewpoint_from_relative_humidity a b = none) →
      dictGet (fillMissingParams O p) "dewpoint" = none) := by
  refine ⟨?_, ?_, ?_, ?_, ?_, ?_, ?_⟩
  · intro k v h
    unfold fillMissingParams
    exact (shape_consequences (fillParcel_shape O _)).2 k v
      ((shape_consequences (fillPressure_shape O _)).2 k v
        ((shape_consequences (fillMixingRatio_shape O _)).2 k v
          ((shape_consequences (fillDewpoint_shape O p)).2 k v h)))
  · intro k hk hne
    by_contra hcon
    push_neg at hcon
    obtain ⟨c1, c2, c3, c4⟩ := hcon
    exact hne (by rw [fillMissingParams_get_ne O p k c1 c2 c3 c4]; exact hk)
  · intro hn hne
    have h1 : ¬ dictGet (fillDewpoint O p) "dewpoint" = none := by
      intro hz
      apply hne
      unfold fillMissingParams
      rw [(shape_consequences (fillParcel_shape O _)).1 "dewpoint" (by decide),
          (shape_consequences (fillPressure_shape O _)).1 "dewpoint" (by decide),
          (shape_consequences (fillMixingRatio_shape O _)).1 "dewpoint" (by decide)]
      exact hz
    obtain heq | ⟨_, hg, _⟩ := fillDewpoint_shape O p
    · rw [heq] at h1
      exact absurd hn h1
    · exact hg
  · intro hn hne
    have hn1 : dictGet (fillDewpoint O p) "mixing_ratio" = none := by
      rw [(shape_consequences (fillDewpoint_shape O p)).1 "mixing_ratio" (by decide)]
      exact hn
    have h1 : ¬ dictGet (fillMixingRatio O (fillDewpoint O p)) "mixing_ratio" = none := by
      intro hz
      apply hne
      unfold fillMissingParams
      rw [(shape_consequences (fillParcel_shape O _)).1 "mixing_ratio" (by decide),
          (shape_consequences (fillPressure_shape O _)).1 "mixing_ratio" (by decide)]
      exact hz
    obtain heq | ⟨_, hg, _⟩ := fillMixingRatio_shape O (fillDewpoint O p)
    · rw [heq] at h1
      exact absurd hn1 h1
    · exact hg
  · intro hn hne
    have hn2 : dictGet (fillMixingRatio O (fillDewpoint O p)) "pressure" = none := by
      rw [(shape_consequences (fillMixingRatio_shape O _)).1 "pressure" (by decide),
          (shape_consequences (fillDewpoint_shape O p)).1 "pressure" (by decide)]
      exact hn
    have h1 : ¬ dictGet (fillPressure O (fillMixingRatio O (fillDewpoint O p)))
        "pressure" = none := by
      intro hz
      apply hne
      unfold fillMissingParams
      rw [(shape_consequences (fillParcel_shape O _)).1 "pressure" (by decide)]
      exact hz
    obtain heq | ⟨_, hg, _⟩ := fillPressure_shape O (fillMixingRatio O (fillDewpoint O p))
    · rw [heq] at h1
      exact absurd hn2 h1
    · exact hg
  · intro hn hne
    have hn3 : dictGet (fillPressure O (fillMixingRatio O (fillDewpoint O p)))
        "parcel_profile" = none := by
      rw [(shape_consequences (fillPressure_shape O _)).1 "parcel_profile" (by decide),
          (shape_consequences (fillMixingRatio_shape O _)).1 "parcel_profile" (by decide),
          (shape_consequences (fillDewpoint_shape O p)).1 "parcel_profile" (by decide)]
      exact hn
    have h1 : ¬ dictGet (fillParcel O (fillPressure O (fillMixingRatio O (fillDewpoint O p))))
        "parcel_profile" = none := hne
    obtain heq | ⟨_, hg, _⟩ :=
      fillParcel_shape O (fillPressure O (fillMixingRatio O (fillDewpoint O p)))
    · rw [heq] at h1
      exact absurd hn3 h1
    · exact hg
  · intro hn ht hr ho
    have hstage : fillDewpoint O p = p := by
      unfold fillDewpoint
      have h0 : dictMem p "dewpoint" = false := by simp [dictMem, hn]
      obtain ⟨t, htv⟩ := Option.isSome_iff_exists.mp (by simpa [dictMem] using ht)
      obtain ⟨rh, hrv⟩ := Option.isSome_iff_exists.mp (by simpa [dictMem] using hr)
      simp [h0, ht, hr, htv, hrv, ho]
    unfold fillMissingParams
    rw [(shape_consequences (fillParcel_shape O _)).1 "dewpoint" (by decide),
        (shape_consequences (fillPressure_shape O _)).1 "dewpoint" (by decide),
        (shape_consequences (fillMixingRatio_shape O _)).1 "dewpoint" (by decide),
        hstage]
    exact hn

/-- A concrete oracle set over plain rationals for the C6 witness. -/
def O6 : DerivOracles ℚ :=
  ⟨fun t _ => some (t - 5), fun q => some q, fun _ _ _ => some 0, fun _ _ _ => some 0,
   fun _ => some 0, fun _ _ => some 0, fun h => some (1000 - h), fun g => some g,
   fun _ _ _ => some 0⟩

/-- A concrete quantities mapping for the C6 witness. -/
def p6 : PyDict ℚ := [("temperature", 25), ("relative_humidity", 70)]

/-- Witness for C6: with temperature and relative humidity present,
dewpoint is synthesized (its first branch's prerequisites are the ones
present), and the pre-existing temperature value is untouched. -/
theorem C6_derived_quantity_filler_witness :
    dictGet (fillMissingParams O6 p6) "temperature" = some 25 ∧
    ((dictMem p6 "temperature" = true ∧ dictMem p6 "relative_humidity" = true) ∨
      (dictMem p6 "temperature" = true ∧ dictMem p6 "specific_humidity" = true ∧
        dictMem p6 "pressure" = true)) :=
  ⟨(C6_derived_quantity_filler O6 p6).1 "temperature" 25 (by decide),
   (C6_derived_quantity_filler O6 p6).2.2.1 (by decide) (by decide)⟩

/-! ## C9 support: postprocess_result_to_records -/

theorem postprocessVals_length (m : Mag) (n : Nat) :
    (postprocessVals m n).length = n := by
  cases m with
  | scalar x => simp [postprocessVals]
  | zeroDim x => simp [postprocessVals]
  | objArr l => simp [postprocessVals]
  | arr xs =>
      simp only [postprocessVals]
      by_cases h : xs.length = n
      · simp [h]
      · simp only [h, if_false]
        cases xs with
        | nil => simp
        | cons a tail =>
            cases tail with
            | nil => simp
            | cons b tl =>
                simp only [List.length_append, List.length_take, List.length_replicate]
                simp at h ⊢
                omega

theorem postprocess_get (result : LibResult) (records : List Rec) (c : String)
    (i : Nat) (h1 : i < records.length)
    (h2 : i < (postprocess_result_to_records result records c).length)
    (h3 : i < (postprocessVals (extractMag result) records.length).length) :
    (postprocess_result_to_records result records c).get ⟨i, h2⟩ =
      dictSet (records.get ⟨i, h1⟩) c
        (optToValue ((postprocessVals (extractMag result) records.length).get ⟨i, h3⟩)) := by
  simp only [postprocess_result_to_records] at h2 ⊢
  simp only [List.get_eq_getElem, List.getElem_map, List.getElem_zip]

/-- C9 (amended): the Result Writer never raises (totality) and
reconciles lengths: the output always has one record per input record; a
true-scalar magnitude (`np.isscalar` — the magnitude of a scalar pint
quantity), or a one-element array result, is broadcast to every record's
result column; any other array whose length differs from the record
count is written clipped — record `i` gets the `i`-th value when `i` is
below the result's actual length and the missing sentinel (null) beyond
it.  A PLAIN non-quantity scalar result, however, is NOT broadcast:
`np.asarray` turns it into a 0-d ndarray, `np.isscalar` is False,
`arr.shape[0]` raises and is caught into an all-nan array, so every
record gets the missing sentinel instead of the value. -/
theorem C9_result_writer (result : LibResult) (records : List Rec) (c : String) :
    (postprocess_result_to_records result records c).length = records.length ∧
    (∀ x, extractMag result = Mag.scalar x →
      postprocess_result_to_records result records c =
        records.map (fun r => dictSet r c (optToValue x))) ∧
    (∀ x, extractMag result = Mag.arr [x] →
      postprocess_result_to_records result records c =
        records.map (fun r => dictSet r c (optToValue x))) ∧
    (∀ xs, extractMag result = Mag.arr xs → xs.length ≠ records.length → xs.length ≠ 1 →
      ∀ i (h1 : i < records.length)
        (h2 : i < (postprocess_result_to_records result records c).length),
        (postprocess_result_to_records result records c).get ⟨i, h2⟩ =
          dictSet (records.get ⟨i, h1⟩) c
            (if h3 : i < xs.length then optToValue (xs.get ⟨i, h3⟩) else Value.null)) ∧
    (∀ x, extractMag result = Mag.zeroDim x →
      postprocess_result_to_records result records c =
        records.map (fun r => dictSet r c Value.null)) := by
  have hlen : (postprocess_result_to_records result records c).length = records.length := by
    simp [postprocess_result_to_records, postprocessVals_length]
  have hbroadcast : ∀ (x : Option ℚ),
      postprocessVals (extractMag result) records.length = List.replicate records.length x →
      postprocess_result_to_records result records c =
        records.map (fun r => dictSet r c (optToValue x)) := by
    intro x hrep
    apply List.ext_get
    · simp [hlen]
    · intro i hi1 hi2
      have h1 : i < records.length := by rwa [hlen] at hi1
      rw [postprocess_get result records c i h1 hi1
        (by rw [postprocessVals_length]; exact h1)]
      simp only [List.get_eq_getElem, List.getElem_map]
      simp only [hrep, List.getElem_replicate]
  refine ⟨hlen, ?_, ?_, ?_, ?_⟩
  · intro x hx
    refine hbroadcast x ?_
    rw [hx]
    simp [postprocessVals]
  · intro x hx
    refine hbroadcast x ?_
    rw [hx]
    simp only [postprocessVals]
    by_cases h : ([x] : List (Option ℚ)).length = records.length
    · rw [if_pos h]
      simp only [List.length_singleton] at h
      rw [← h]
      simp
    · rw [if_neg h]
  · intro xs hx hne hone i h1 h2
    rw [postprocess_get result records c i h1 h2
      (by rw [postprocessVals_length]; exact h1)]
    have hv : postprocessVals (extractMag result) records.length =
        xs.take records.length ++ List.replicate (records.length - xs.length) none := by
      rw [hx]
      simp only [postprocessVals]
      rw [if_neg hne]
      cases xs with
      | nil => rfl
      | cons a tail =>
          cases tail with
          | nil => simp at hone
          | cons b tl => rfl
    simp only [List.get_eq_getElem]
    congr 1
    simp only [hv]
    by_cases h3 : i < xs.length
    · rw [dif_pos h3]
      rw [List.getElem_append_left (by simp only [List.length_take]; omega)]
      simp
    · rw [dif_neg h3]
      push_neg at h3
      rw [List.getElem_append_right (by simp only [List.length_take]; omega)]
      simp [optToValue]
  · intro x hx
    have hrep := hbroadcast none
    simp only [optToValue] at hrep
    apply hrep
    rw [hx]
    simp [postprocessVals]

/-- C9 counterexample: a plain (non-quantity) scalar result of 5 over one
record is not broadcast — the record's result column becomes null, not 5
— refuting "if the result is a scalar ... its value is broadcast to
every record's result column". -/
theorem C9_result_writer_cex :
    postprocess_result_to_records (LibResult.single (VecResult.scalar (some 5)))
        [[("a", Value.num 1)]] "out" =
      [[("a", Value.num 1), ("out", Value.null)]] ∧
    dictGet ([("a", Value.num 1), ("out", Value.null)] : Rec) "out" ≠
      some (Value.num 5) :=
  ⟨by decide, by decide⟩

/-- Records for the C9 witness. -/
def recs9 : List Rec := [[("a", Value.num 1)], []]

/-- Witness for C9: a one-element array result against two records is
broadcast to both records' result columns. -/
theorem C9_result_writer_witness :
    extractMag (LibResult.single (VecResult.arr [some 7])) = Mag.arr [some 7] ∧
    postprocess_result_to_records (LibResult.single (VecResult.arr [some 7])) recs9 "out" =
      recs9.map (fun r => dictSet r "out" (optToValue (some 7))) :=
  ⟨by decide,
   (C9_result_writer (LibResult.single (VecResult.arr [some 7])) recs9 "out").2.2.1
     (some 7) (by decide)⟩

/-! ## C10 support: the Column Map depends only on the first record -/

theorem mem_dictSet {β : Type} (d : PyDict β) (k : String) (v : β)
    (p : String × β) (h : p ∈ dictSet d k v) : p ∈ d ∨ p = (k, v) := by
  induction d with
  | nil => simpa [dictSet] using h
  | cons q rest ih =>
      obtain ⟨k0, v0⟩ := q
      by_cases h0 : k0 = k
      · simp only [dictSet, h0, if_pos rfl] at h
        rcases List.mem_cons.mp h with h | h
        · exact Or.inr (by simpa [h0] using h)
        · exact Or.inl (List.mem_cons_of_mem _ h)
      · simp only [dictSet, h0, if_false] at h
        rcases List.mem_cons.mp h with h | h
        · exact Or.inl (by simp [h])
        · rcases ih h with h | h
          · exact Or.inl (List.mem_cons_of_mem _ h)
          · exact Or.inr h

theorem lowcols_values (cols : List String) (p : String × String) :
    ∀ (acc : PyDict String),
    p ∈ cols.foldl (fun m c => dictSet m (strLower c) c) acc → p ∈ acc ∨ p.2 ∈ cols := by
  induction cols with
  | nil => intro acc h; exact Or.inl h
  | cons c cs ih =>
      intro acc h
      rcases ih (dictSet acc (strLower c) c) h with h | h
      · rcases mem_dictSet acc (strLower c) c p h with h | h
        · exact Or.inl h
        · exact Or.inr (by simp [h])
      · exact Or.inr (List.mem_cons_of_mem _ h)

theorem dictGet_mem {β : Type} (d : PyDict β) (k : String) (v : β)
    (h : dictGet d k = some v) : (k, v) ∈ d := by
  induction d with
  | nil => simp [dictGet] at h
  | cons q rest ih =>
      obtain ⟨k0, v0⟩ := q
      by_cases h0 : k0 = k
      · subst h0
        simp only [dictGet, if_pos rfl] at h
        obtain rfl : v0 = v := by injection h
        exact List.mem_cons_self _ _
      · simp only [dictGet, if_neg h0] at h
        exact List.mem_cons_of_mem _ (ih h)

theorem findColForAliases_mem (aliases : List String) (cols : List String)
    (col : String) (h : findColForAliases aliases (lowcols cols) = some col) :
    col ∈ cols := by
  obtain ⟨a, _, ha⟩ := List.exists_of_findSome?_eq_some h
  unfold findColForAlias at ha
  cases hf : List.find? (fun p => aliasMatch (strLower a) p.1) (lowcols cols) with
  | none => rw [hf] at ha; cases ha
  | some q =>
      rw [hf] at ha
      obtain rfl : q.2 = col := by injection ha
      have hq := List.mem_of_find?_eq_some hf
      rcases lowcols_values cols q [] hq with h | h
      · cases h
      · exact h

theorem build_column_map_range (cols : List String) (schema : Schema)
    (c col : String) (h : dictGet (build_column_map cols schema) c = some col) :
    col ∈ cols := by
  have hmem := dictGet_mem _ _ _ h
  simp only [build_column_map, List.mem_filterMap] at hmem
  obtain ⟨p, _, hp⟩ := hmem
  cases hf : findColForAliases p.2.aliases (lowcols cols) with
  | none => rw [hf] at hp; cases hp
  | some col0 =>
      rw [hf] at hp
      obtain ⟨rfl, rfl⟩ : p.1 = c ∧ col0 = col := by
        constructor <;> injection hp with h1 <;> simp_all
      exact findColForAliases_mem _ _ _ hf

/-- C10: `compute_with_metpy` builds its Column Map solely from the keys
of the first record — the map is unchanged if the later records are
replaced by anything — every resolved column is a key of the first
record (so a column appearing only in later records is never resolved),
and the Unit Normalizer produces quantities only for canonical fields of
that map, so an unresolved column never contributes to the vectorized
inputs. -/
theorem C10_first_record_columns (schema : Schema) :
    (∀ (r0 : Rec) (rs rs' : List Rec),
      computeColumnMap (r0 :: rs) schema = computeColumnMap (r0 :: rs') schema) ∧
    (∀ (r0 : Rec) (rs : List Rec) (c col : String),
      dictGet (computeColumnMap (r0 :: rs) schema) c = some col →
        col ∈ dictKeys r0) ∧
    (∀ (records : List Rec) (colmap : PyDict String) (k : String),
      k ∉ dictKeys colmap →
        dictGet (normalize_units records colmap schema).1 k = none) := by
  refine ⟨fun _ _ _ => rfl, ?_, ?_⟩
  · intro r0 rs c col h
    exact build_column_map_range (dictKeys r0) schema c col h
  · intro records colmap k hk
    rw [normalize_units,
      normFold_fst_not_mem records schema records.length k colmap ([], []) hk]
    rfl

/-- First record for the C10 witness. -/
def r0w : Rec := [("气温", Value.num 20)]

/-- A later record (with a column absent from the first) for the C10 witness. -/
def rLaterW : Rec := [("露点", Value.num 5)]

/-- Witness for C10: the Column Map over a two-record dataset equals the
map over the first record alone; `temperature` resolves to the first
record's column `气温`; and the canonical field `wind_speed`, absent from
the map, yields no quantity. -/
theorem C10_first_record_columns_witness :
    (computeColumnMap [r0w, rLaterW] DEFAULT_SCHEMA =
      computeColumnMap [r0w] DEFAULT_SCHEMA) ∧
    (dictGet (computeColumnMap [r0w, rLaterW] DEFAULT_SCHEMA) "temperature" =
        some "气温" ∧ "气温" ∈ dictKeys r0w) ∧
    dictGet (normalize_units [r0w, rLaterW]
        (computeColumnMap [r0w, rLaterW] DEFAULT_SCHEMA) DEFAULT_SCHEMA).1
      "wind_speed" = none :=
  ⟨(C10_first_record_columns DEFAULT_SCHEMA).1 r0w [rLaterW] [],
   ⟨by decide,
    (C10_first_record_columns DEFAULT_SCHEMA).2.1 r0w [rLaterW] "temperature" "气温"
      (by decide)⟩,
   (C10_first_record_columns DEFAULT_SCHEMA).2.2 [r0w, rLaterW]
     (computeColumnMap [r0w, rLaterW] DEFAULT_SCHEMA) "wind_speed" (by decide)⟩

/-! ## C1: unknown function names -/

/-- C1 (the code, as written): for a function name absent from the
calculation library and a non-empty record sequence,
`call_metpy_function_vectorized` does return the no-such-function error;
but `compute_with_metpy` then enters the row-wise fallback, whose first
statement `func = getattr(mpcalc, func_name)` (line 262) raises
AttributeError — the exception escapes `compute_with_metpy`, so no
"fail" outcome is returned.  This contradicts the claim and the spec's
stated intent (return status `fail` immediately, no fallback attempted),
while the guard in `call_metpy_function_vectorized` shows the intent to
handle the missing-function case gracefully: a code bug. -/
theorem C1_unknown_function_raises (L : Library) (records : List Rec)
    (func_name : String) (schema : Schema) (out_col : Option String) (extra : Rec)
    (hne : records ≠ []) (habs : dictGet L.funcs func_name = none) :
    compute_with_metpy L records func_name schema out_col extra =
      .error ("AttributeError: module metpy.calc has no attribute " ++ func_name) := by
  obtain ⟨r0, rs, rfl⟩ : ∃ r0 rs, records = r0 :: rs := by
    cases records with
    | nil => exact absurd rfl hne
    | cons a l => exact ⟨a, l, rfl⟩
  simp only [compute_with_metpy, call_metpy_function_vectorized, habs]

/-- An oracle set that always fails, for library parameters in witnesses. -/
def noOracles (α : Type) : DerivOracles α :=
  ⟨fun _ _ => none, fun _ => none, fun _ _ _ => none, fun _ _ _ => none,
   fun _ => none, fun _ _ => none, fun _ => none, fun _ => none, fun _ _ _ => none⟩

/-- An empty calculation library. -/
def emptyLib : Library := ⟨[], noOracles VQ, noOracles FVal⟩

/-- Witness for C1 at the spec's own example input: dispatching
`not_a_real_function` over one record raises AttributeError instead of
returning a fail outcome. -/
theorem C1_unknown_function_raises_witness :
    (([[("气温", Value.num 20)]] : List Rec) ≠ [] ∧
      dictGet emptyLib.funcs "not_a_real_function" = none) ∧
    compute_with_metpy emptyLib [[("气温", Value.num 20)]] "not_a_real_function"
        [] none [] =
      .error ("AttributeError: module metpy.calc has no attribute " ++
        "not_a_real_function") :=
  ⟨⟨by decide, rfl⟩,
   C1_unknown_function_raises emptyLib [[("气温", Value.num 20)]]
     "not_a_real_function" [] none [] (by decide) rfl⟩

/-! ## C2: outcome keys -/

/-- C2 (amended): every outcome RETURNED by `compute_with_metpy` contains
`status`, `message` and `processed`; `stats` is present exactly when the
status is success or partial; `result_field` is present exactly when the
status is success — the partial outcome of the row-wise fallback carries
no `result_field`, contrary to the claim.  The always-failing import stub
returns only `status` and `message` (no `processed`), contrary to the
claim; and the generated tool forwards `compute_with_metpy`'s outcome
unchanged on success, while its exception handler likewise returns only
`status` and `message`. -/
theorem C2_outcome_keys (L : Library) (records : List Rec) (fn : String)
    (schema : Schema) (oc : Option String) (ex : Rec) :
    (∀ o, compute_with_metpy L records fn schema oc ex = .ok o →
      o.processed.isSome = true ∧
      (o.stats.isSome = true ↔ (o.status = "success" ∨ o.status = "partial")) ∧
      (o.result_field.isSome = true ↔ o.status = "success")) ∧
    (∀ e, (error_tool e records ex).processed = none ∧
      (error_tool e records ex).stats = none ∧
      (error_tool e records ex).result_field = none) ∧
    (∀ o, compute_with_metpy L records fn DEFAULT_SCHEMA none ex = .ok o →
      tool_call L fn records ex = o) ∧
    (∀ e, compute_with_metpy L records fn DEFAULT_SCHEMA none ex = .error e →
      tool_call L fn records ex = ⟨"fail", e, none, none, none⟩) := by
  refine ⟨?_, fun e => ⟨rfl, rfl, rfl⟩, ?_, ?_⟩
  · intro o ho
    cases records with
    | nil =>
        simp only [compute_with_metpy] at ho
        obtain rfl : failEmpty = o := by injection ho
        exact ⟨rfl, by simp [failEmpty], by simp [failEmpty]⟩
    | cons r0 rs =>
        simp only [compute_with_metpy] at ho
        cases hcall : call_metpy_function_vectorized L fn
            (prepare_quantities
              (normalize_units (r0 :: rs) (computeColumnMap (r0 :: rs) schema) schema).1)
            ex with
        | error err =>
            rw [hcall] at ho
            cases hfn : dictGet L.funcs fn with
            | none => rw [hfn] at ho; cases ho
            | some f =>
                rw [hfn] at ho
                obtain rfl : fallbackOutcome f L (r0 :: rs) fn schema
                    (computeColumnMap (r0 :: rs) schema) ex err = o := by injection ho
                exact ⟨rfl, by simp [fallbackOutcome], by simp [fallbackOutcome]⟩
        | ok res =>
            rw [hcall] at ho
            cases res with
            | tuple2 a b =>
                have ho2 : (if fn = "cape_cin" then Except.ok (capeOutcome a b (r0 :: rs) fn)
                    else Except.ok
                      (normalSuccessOutcome (LibResult.tuple2 a b) (r0 :: rs) fn oc)) =
                    Except.ok o := ho
                by_cases hc : fn = "cape_cin"
                · rw [if_pos hc] at ho2
                  obtain rfl : capeOutcome a b (r0 :: rs) fn = o := by injection ho2
                  exact ⟨rfl, by simp [capeOutcome], by simp [capeOutcome]⟩
                · rw [if_neg hc] at ho2
                  obtain rfl : normalSuccessOutcome (LibResult.tuple2 a b) (r0 :: rs) fn oc = o := by
                    injection ho2
                  exact ⟨rfl, by simp [normalSuccessOutcome], by simp [normalSuccessOutcome]⟩
            | single r =>
                obtain rfl : normalSuccessOutcome (LibResult.single r) (r0 :: rs) fn oc = o := by
                  injection ho
                exact ⟨rfl, by simp [normalSuccessOutcome], by simp [normalSuccessOutcome]⟩
  · intro o ho
    unfold tool_call
    rw [ho]
  · intro e he
    unfold tool_call
    rw [he]

/-- C2 counterexample: the import-failure stub's outcome has no
`processed` key at all, refuting "every outcome ... contains the keys
status, message, and processed — including the outcomes produced by the
always-failing import stub". -/
theorem C2_outcome_keys_cex :
    (error_tool "boom" [[("气温", Value.num 20)]] []).status = "fail" ∧
    (error_tool "boom" [[("气温", Value.num 20)]] []).processed = none :=
  ⟨rfl, rfl⟩

/-- Witness for C2 on the empty-record fail outcome. -/
theorem C2_outcome_keys_witness :
    compute_with_metpy emptyLib [] "dewpoint" [] none [] = Except.ok failEmpty ∧
    (failEmpty.processed.isSome = true ∧
      (failEmpty.stats.isSome = true ↔
        (failEmpty.status = "success" ∨ failEmpty.status = "partial")) ∧
      (failEmpty.result_field.isSome = true ↔ failEmpty.status = "success")) :=
  ⟨rfl, (C2_outcome_keys emptyLib [] "dewpoint" [] none []).1 failEmpty rfl⟩

/-! ## C7: the row-wise fallback -/

theorem countP_compl {γ : Type} (l : List γ) (p : γ → Prop) [DecidablePred p] :
    l.countP (fun a => decide (p a)) + l.countP (fun a => !decide (p a)) = l.length := by
  induction l with
  | nil => simp
  | cons a tl ih =>
      by_cases h : p a <;> simp [List.countP_cons, h] <;> omega

theorem fallbackRowOut_spec (fn : String) (rec : Rec) (out : FVal) :
    (fallbackRowOut fn rec out).2 ≠ RowTag.errTag ∧
    ∃ v, (fallbackRowOut fn rec out).1 = dictSet rec (fn ++ "_result") v := by
  simp only [fallbackRowOut]
  cases fvalFloat (rowExtract out) with
  | some x => exact ⟨by simp, Value.num (round4 x), rfl⟩
  | none => exact ⟨by simp, Value.str (fvalRepr (rowExtract out)), rfl⟩

theorem fallbackRow_spec (f : LibFunc) (O : DerivOracles FVal) (fn : String)
    (schema : Schema) (colmap : PyDict String) (extra : Rec) (rec : Rec) :
    ((fallbackRow f O fn schema colmap extra rec).2 = RowTag.errTag ∧
      ∃ e, fallbackRow f O fn schema colmap extra rec =
        (dictSet rec (fn ++ "_error") (Value.str e), RowTag.errTag)) ∨
    ((fallbackRow f O fn schema colmap extra rec).2 ≠ RowTag.errTag ∧
      ∃ v, (fallbackRow f O fn schema colmap extra rec).1 =
        dictSet rec (fn ++ "_result") v) := by
  simp only [fallbackRow]
  cases f.rowImpl (fillMissingParams O
      (attachUnits schema (buildRowKwargs f.params rec colmap extra))) with
  | error e => exact Or.inl ⟨rfl, e, rfl⟩
  | ok out => exact Or.inr (fallbackRowOut_spec fn rec out)

/-- C7 (amended): whenever the vectorized call fails for a function that
exists in the library, `compute_with_metpy` runs the row-wise fallback
over every record; each output record is a copy of its input with exactly
one column SET — `<function>_result` (rounded to 4 decimal places on
numeric success) or `<function>_error` (the error text) — appended when
the name is not already a column, overwriting an existing column of that
name otherwise; one record's failure never aborts the batch (the
per-record function is total and every record yields an output record);
error-set rows plus result-set rows equal the total row count; the final
status is "partial" unconditionally; and when any numeric values
succeeded the stats carry their mean and count. -/
theorem C7_rowwise_fallback (L : Library) (records : List Rec) (fn : String)
    (schema : Schema) (oc : Option String) (ex : Rec) (f : LibFunc) (err : String)
    (hne : records ≠ [])
    (hf : dictGet L.funcs fn = some f)
    (hvec : call_metpy_function_vectorized L fn
        (prepare_quantities
          (normalize_units records (computeColumnMap records schema) schema).1) ex =
      .error err) :
    compute_with_metpy L records fn schema oc ex =
      .ok (fallbackOutcome f L records fn schema (computeColumnMap records schema) ex err) ∧
    (fallbackOutcome f L records fn schema (computeColumnMap records schema) ex err).status =
      "partial" ∧
    (fallbackOutcome f L records fn schema (computeColumnMap records schema) ex err).processed =
      some ((records.map
        (fallbackRow f L.rowOracles fn schema (computeColumnMap records schema) ex)).map
          Prod.fst) ∧
    ((records.map
        (fallbackRow f L.rowOracles fn schema (computeColumnMap records schema) ex)).map
          Prod.fst).length = records.length ∧
    (∀ rec : Rec,
      (∃ e, fallbackRow f L.rowOracles fn schema (computeColumnMap records schema) ex rec =
        (dictSet rec (fn ++ "_error") (Value.str e), RowTag.errTag)) ∨
      (∃ v, (fallbackRow f L.rowOracles fn schema (computeColumnMap records schema) ex rec).1 =
          dictSet rec (fn ++ "_result") v ∧
        (fallbackRow f L.rowOracles fn schema (computeColumnMap records schema) ex rec).2 ≠
          RowTag.errTag)) ∧
    ((records.map
        (fallbackRow f L.rowOracles fn schema (computeColumnMap records schema) ex)).countP
          (fun rw => decide (rw.2 = RowTag.errTag)) +
      (records.map
        (fallbackRow f L.rowOracles fn schema (computeColumnMap records schema) ex)).countP
          (fun rw => !decide (rw.2 = RowTag.errTag)) = records.length) ∧
    (∀ rvs, rvs = (records.map
        (fallbackRow f L.rowOracles fn schema (computeColumnMap records schema) ex)).filterMap
          (fun rw => match rw.2 with | RowTag.resNum v => some v | _ => none) →
      rvs ≠ [] →
      (fallbackOutcome f L records fn schema (computeColumnMap records schema) ex err).stats =
        some [("mean", qMean rvs), ("count", (rvs.length : ℚ))]) := by
  refine ⟨?_, rfl, rfl, by simp, ?_, ?_, ?_⟩
  · obtain ⟨r0, rs, rfl⟩ : ∃ r0 rs, records = r0 :: rs := by
      cases records with
      | nil => exact absurd rfl hne
      | cons a l => exact ⟨a, l, rfl⟩
    simp only [compute_with_metpy, hvec, hf]
  · intro rec
    rcases fallbackRow_spec f L.rowOracles fn schema (computeColumnMap records schema) ex rec
      with ⟨_, e, he⟩ | ⟨hne2, v, hv⟩
    · exact Or.inl ⟨e, he⟩
    · exact Or.inr ⟨v, hv, hne2⟩
  · rw [countP_compl
      (records.map (fallbackRow f L.rowOracles fn schema (computeColumnMap records schema) ex))
      (fun rw => rw.2 = RowTag.errTag)]
    simp
  · intro rvs hrv hne2
    subst hrv
    simp only [fallbackOutcome]
    rw [if_neg (by simpa [List.isEmpty_iff] using hne2)]

/-- A library function whose vectorized call and per-record calls both
raise, for the C7 scenarios. -/
def func7 : LibFunc := ⟨["x"], fun _ => .error "vecboom", fun _ => .error "boom"⟩

/-- The library exposing `func7` as `f`. -/
def lib7 : Library := ⟨[("f", func7)], noOracles VQ, noOracles FVal⟩

/-- C7 counterexample: the input record already contains a column named
`f_error`; the fallback OVERWRITES it (the output record has the same
keys, no appended column, and the original pair `("f_error", 99)` is
gone), refuting "each output record is a copy of its input carrying
exactly one appended column". -/
theorem C7_rowwise_fallback_cex :
    compute_with_metpy lib7 [[("f_error", Value.num 99)]] "f" [] none [] =
      .ok ⟨"partial", "向量化失败，已回退到逐条计算（可能部分失败）：vecboom",
        some [[("f_error", Value.str "boom")]], some [], none⟩ ∧
    dictKeys ([("f_error", Value.str "boom")] : Rec) =
      dictKeys ([("f_error", Value.num 99)] : Rec) ∧
    dictGet ([("f_error", Value.str "boom")] : Rec) "f_error" ≠ some (Value.num 99) :=
  ⟨rfl, by decide, by decide⟩

/-- Witness for C7 on a concrete one-record batch whose vectorized call
fails and whose per-record call also fails. -/
theorem C7_rowwise_fallback_witness :
    (([[("气温", Value.num 20)]] : List Rec) ≠ [] ∧
      dictGet lib7.funcs "f" = some func7 ∧
      call_metpy_function_vectorized lib7 "f"
        (prepare_quantities (normalize_units [[("气温", Value.num 20)]]
          (computeColumnMap [[("气温", Value.num 20)]] ([] : Schema)) []).1) [] =
        .error "vecboom") ∧
    compute_with_metpy lib7 [[("气温", Value.num 20)]] "f" [] none [] =
      .ok (fallbackOutcome func7 lib7 [[("气温", Value.num 20)]] "f" []
        (computeColumnMap [[("气温", Value.num 20)]] []) [] "vecboom") ∧
    (fallbackOutcome func7 lib7 [[("气温", Value.num 20)]] "f" []
      (computeColumnMap [[("气温", Value.num 20)]] []) [] "vecboom").status = "partial" ∧
    ((([[("气温", Value.num 20)]] : List Rec).map
        (fallbackRow func7 lib7.rowOracles "f" []
          (computeColumnMap [[("气温", Value.num 20)]] []) [])).countP
          (fun rw => decide (rw.2 = RowTag.errTag)) +
      (([[("气温", Value.num 20)]] : List Rec).map
        (fallbackRow func7 lib7.rowOracles "f" []
          (computeColumnMap [[("气温", Value.num 20)]] []) [])).countP
          (fun rw => !decide (rw.2 = RowTag.errTag)) =
      ([[("气温", Value.num 20)]] : List Rec).length) :=
  ⟨⟨by decide, rfl, rfl⟩,
   (C7_rowwise_fallback lib7 [[("气温", Value.num 20)]] "f" [] none [] func7 "vecboom"
     (by decide) rfl rfl).1,
   (C7_rowwise_fallback lib7 [[("气温", Value.num 20)]] "f" [] none [] func7 "vecboom"
     (by decide) rfl rfl).2.1,
   (C7_rowwise_fallback lib7 [[("气温", Value.num 20)]] "f" [] none [] func7 "vecboom"
     (by decide) rfl rfl).2.2.2.2.2.1⟩

/-! ## C8: processed records preserve the input -/

theorem postprocess_length (result : LibResult) (records : List Rec) (c : String) :
    (postprocess_result_to_records result records c).length = records.length := by
  simp [postprocess_result_to_records, postprocessVals_length]

theorem postprocess_get_set (result : LibResult) (records : List Rec) (c : String)
    (i : Nat) (h1 : i < records.length)
    (h2 : i < (postprocess_result_to_records result records c).length) :
    ∃ v, (postprocess_result_to_records result records c).get ⟨i, h2⟩ =
      dictSet (records.get ⟨i, h1⟩) c v :=
  ⟨_, postprocess_get result records c i h1 h2
    (by rw [postprocessVals_length]; exact h1)⟩

/-- C8 (amended): whenever `compute_with_metpy` returns status success or
partial, the processed sequence has the same length as the input and its
i-th record extends the i-th input record: the input's keys are a prefix
of the output's keys (same order, new columns appended at the end), and
every key other than the written result/error column names keeps its
input value.  A key EQUAL to a written column name (`out_col` /
`<function>_result` / `<function>_error` / `cape_result` / `cin_result`)
may be overwritten — the unamended "contains every key-value pair of the
input" fails there. -/
theorem C8_processed_preserves (L : Library) (records : List Rec) (fn : String)
    (schema : Schema) (oc : Option String) (ex : Rec) (o : Outcome)
    (ho : compute_with_metpy L records fn schema oc ex = .ok o)
    (hst : o.status = "success" ∨ o.status = "partial") :
    o.processed.isSome = true ∧
    (o.processed.getD []).length = records.length ∧
    ∀ i (h1 : i < records.length) (h2 : i < (o.processed.getD []).length),
      dictKeys (records.get ⟨i, h1⟩) <+: dictKeys ((o.processed.getD []).get ⟨i, h2⟩) ∧
      ∀ k, k ∉ [outColName fn oc, fn ++ "_result", fn ++ "_error",
          "cape_result", "cin_result"] →
        dictGet ((o.processed.getD []).get ⟨i, h2⟩) k =
          dictGet (records.get ⟨i, h1⟩) k := by
  cases records with
  | nil =>
      simp only [compute_with_metpy] at ho
      obtain rfl : failEmpty = o := by injection ho
      rcases hst with h | h <;> exact absurd h (by decide)
  | cons r0 rs =>
      simp only [compute_with_metpy] at ho
      cases hcall : call_metpy_function_vectorized L fn
          (prepare_quantities
            (normalize_units (r0 :: rs) (computeColumnMap (r0 :: rs) schema) schema).1)
          ex with
      | error err =>
          rw [hcall] at ho
          cases hfn : dictGet L.funcs fn with
          | none => rw [hfn] at ho; cases ho
          | some f =>
              rw [hfn] at ho
              obtain rfl : fallbackOutcome f L (r0 :: rs) fn schema
                  (computeColumnMap (r0 :: rs) schema) ex err = o := by injection ho
              refine ⟨rfl, by simp [fallbackOutcome], ?_⟩
              intro i h1 h2
              simp only [fallbackOutcome, Option.getD_some] at h2 ⊢
              simp only [List.get_eq_getElem, List.getElem_map]
              rcases fallbackRow_spec f L.rowOracles fn schema
                  (computeColumnMap (r0 :: rs) schema) ex ((r0 :: rs)[i]) with
                ⟨_, e, he⟩ | ⟨_, v, hv⟩
              · rw [he]
                refine ⟨dictKeys_set_grows _ _ _, ?_⟩
                intro k hk
                simp only [List.mem_cons, List.mem_singleton] at hk
                push_neg at hk
                exact dictGet_set_ne _ _ _ _ hk.2.2.1
              · rw [hv]
                refine ⟨dictKeys_set_grows _ _ _, ?_⟩
                intro k hk
                simp only [List.mem_cons, List.mem_singleton] at hk
                push_neg at hk
                exact dictGet_set_ne _ _ _ _ hk.2.1
      | ok res =>
          rw [hcall] at ho
          have hmain : ∀ r : LibResult,
              (Except.ok (normalSuccessOutcome r (r0 :: rs) fn oc) : Except String Outcome) =
                .ok o →
              o.processed.isSome = true ∧
              (o.processed.getD []).length = (r0 :: rs).length ∧
              ∀ i (h1 : i < (r0 :: rs).length) (h2 : i < (o.processed.getD []).length),
                dictKeys ((r0 :: rs).get ⟨i, h1⟩) <+:
                  dictKeys ((o.processed.getD []).get ⟨i, h2⟩) ∧
                ∀ k, k ∉ [outColName fn oc, fn ++ "_result", fn ++ "_error",
                    "cape_result", "cin_result"] →
                  dictGet ((o.processed.getD []).get ⟨i, h2⟩) k =
                    dictGet ((r0 :: rs).get ⟨i, h1⟩) k := by
            intro r hr
            obtain rfl : normalSuccessOutcome r (r0 :: rs) fn oc = o := by injection hr
            refine ⟨rfl, postprocess_length _ _ _, ?_⟩
            intro i h1 h2
            simp only [normalSuccessOutcome, Option.getD_some] at h2 ⊢
            obtain ⟨v, hv⟩ := postprocess_get_set r (r0 :: rs) (outColName fn oc) i h1 h2
            rw [hv]
            refine ⟨dictKeys_set_grows _ _ _, ?_⟩
            intro k hk
            simp only [List.mem_cons, List.mem_singleton] at hk
            push_neg at hk
            exact dictGet_set_ne _ _ _ _ hk.1
          cases res with
          | single r => exact hmain (LibResult.single r) ho
          | tuple2 a b =>
              have ho2 : (if fn = "cape_cin" then
                  Except.ok (capeOutcome a b (r0 :: rs) fn)
                else Except.ok
                  (normalSuccessOutcome (LibResult.tuple2 a b) (r0 :: rs) fn oc)) =
                  Except.ok o := ho
              by_cases hc : fn = "cape_cin"
              · rw [if_pos hc] at ho2
                obtain rfl : capeOutcome a b (r0 :: rs) fn = o := by injection ho2
                refine ⟨rfl, ?_, ?_⟩
                · show (postprocess_result_to_records (LibResult.single b)
                      (postprocess_result_to_records (LibResult.single a) (r0 :: rs)
                        "cape_result") "cin_result").length = (r0 :: rs).length
                  rw [postprocess_length, postprocess_length]
                · intro i h1 h2
                  simp only [capeOutcome, Option.getD_some] at h2 ⊢
                  have h1b : i < (postprocess_result_to_records (LibResult.single a)
                      (r0 :: rs) "cape_result").length := by
                    rw [postprocess_length]; exact h1
                  obtain ⟨v2, hv2⟩ := postprocess_get_set (LibResult.single b)
                    (postprocess_result_to_records (LibResult.single a) (r0 :: rs) "cape_result")
                    "cin_result" i h1b h2
                  obtain ⟨v1, hv1⟩ := postprocess_get_set (LibResult.single a)
                    (r0 :: rs) "cape_result" i h1 h1b
                  rw [hv2, hv1]
                  constructor
                  · exact (dictKeys_set_grows _ _ _).trans (dictKeys_set_grows _ _ _)
                  · intro k hk
                    simp only [List.mem_cons, List.mem_singleton] at hk
                    push_neg at hk
                    rw [dictGet_set_ne _ _ _ _ hk.2.2.2.2.1, dictGet_set_ne _ _ _ _ hk.2.2.2.1]
              · rw [if_neg hc] at ho2
                exact hmain (LibResult.tuple2 a b) ho2

/-- A library function whose vectorized call returns a one-element
all-missing array, for the C8 scenarios. -/
def func8 : LibFunc := ⟨["x"], fun _ => .ok (.single (.arr [none])), fun _ => .error "r"⟩

/-- The library exposing `func8` as `f`. -/
def lib8 : Library := ⟨[("f", func8)], noOracles VQ, noOracles FVal⟩

/-- C8 counterexample: a successful computation whose input record
already contains a column named `f_result`; the writer overwrites it, so
the output record does not contain the input pair `("f_result", 99)`,
refuting "its i-th record contains every key-value pair of the i-th
input record". -/
theorem C8_processed_preserves_cex :
    compute_with_metpy lib8 [[("f_result", Value.num 99)]] "f" [] none [] =
      .ok ⟨"success", "f 计算完成", some [[("f_result", Value.null)]],
        some [], some "f_result"⟩ ∧
    dictGet ([("f_result", Value.null)] : Rec) "f_result" ≠ some (Value.num 99) :=
  ⟨rfl, by decide⟩

/-- The success outcome of the C8 witness run. -/
def o8 : Outcome :=
  ⟨"success", "f 计算完成",
    some [[("气温", Value.num 20), ("f_result", Value.null)]], some [], some "f_result"⟩

/-- Witness for C8 on a collision-free success run: one input record, one
output record, with the result column appended. -/
theorem C8_processed_preserves_witness :
    (compute_with_metpy lib8 [[("气温", Value.num 20)]] "f" [] none [] = .ok o8 ∧
      (o8.status = "success" ∨ o8.status = "partial")) ∧
    o8.processed.isSome = true ∧
    (o8.processed.getD []).length = ([[("气温", Value.num 20)]] : List Rec).length :=
  ⟨⟨rfl, Or.inl rfl⟩,
   (C8_processed_preserves lib8 [[("气温", Value.num 20)]] "f" [] none [] o8
     rfl (Or.inl rfl)).1,
   (C8_processed_preserves lib8 [[("气温", Value.num 20)]] "f" [] none [] o8
     rfl (Or.inl rfl)).2.1⟩
